import Mathlib

/-! sns-subscribe: a verification development of `main.go`

The program registers an HTTP endpoint as a subscriber of an SNS topic and
completes the confirmation handshake.  This file embeds the three pieces of
`main.go` that carry behaviour:

* `confirmSubscription` and `ServeHTTP`, the methods of `handler`
  (sequential code, embedded as functions on an explicit world state);
* `subscribe`, whose body runs a main thread and a goroutine (embedded as a
  deterministic step function driven by a schedule of scheduler choices).

Library code that `main.go` calls (`json.Unmarshal`, `http.Get`,
`session.NewSession`, `url.Parse`, `sns.Subscribe`, `http.Handle`,
`http.ListenAndServe`) is not part of the repository; its results are the
fields of `Env`.  `sync.WaitGroup` is modelled by its `int32` counter: `Add`
wraps around and panics when the counter is negative, `Wait` returns when the
counter is zero.
-/

namespace SnsSubscribe

/-! ## Constants of `main.go` and of `net/http` -/

/-- The constant `subConfirmType` of `main.go`. -/
def subConfirmType : String := "SubscriptionConfirmation"

/-- The constant `http.MethodPost`. -/
def MethodPost : String := "POST"

/-- The constant `http.StatusMethodNotAllowed`. -/
def StatusMethodNotAllowed : Nat := 405

/-- The function `http.StatusText`, on the one code `main.go` passes to it. -/
def StatusText (code : Nat) : String :=
  if code = 405 then "Method Not Allowed" else ""

/-! ## Go values decoded from JSON -/

/-- Dynamic values that `json.Unmarshal` stores into an `interface{}`:
`nil`, `bool`, `float64` (kept as its literal), `string`, `[]interface{}` and
`map[string]interface{}` (an association list; indexing takes the first
binding of a key). -/
inductive GoValue where
  | nil : GoValue
  | bool (b : Bool) : GoValue
  | float64 (lit : String) : GoValue
  | string (s : String) : GoValue
  | slice (xs : List GoValue) : GoValue
  | map (m : List (String × GoValue)) : GoValue

/-- The type assertion `f.(map[string]interface{})`; `none` is the run-time
panic of a failed assertion. -/
def GoValue.assertMap : GoValue → Option (List (String × GoValue))
  | .map m => some m
  | _ => none

/-- The type assertion `v.(string)`; `none` is the run-time panic of a failed
assertion. -/
def GoValue.assertString : GoValue → Option String
  | .string s => some s
  | _ => none

/-- The map index expression `data[key]`: the zero value `nil` for an absent
key. -/
def mapIndex (data : List (String × GoValue)) (key : String) : GoValue :=
  match data.lookup key with
  | some v => v
  | none => .nil

/-! ## Effects -/

/-- The argument of the `Subscribe` request, `sns.SubscribeInput`. -/
structure SubscribeInput where
  Endpoint : String
  Protocol : String
  TopicArn : String
  deriving DecidableEq, Repr

/-- Observable effects, recorded in program order. -/
inductive Event where
  /-- The call `session.NewSession` for a region. -/
  | newSession (region : String)
  /-- The call `wg.Add(delta)`; `wg.Done()` is `wg.Add(-1)`. -/
  | wgAdd (delta : Int)
  /-- The `go` statement starting the listener goroutine. -/
  | goServe
  /-- A successful `http.Handle(pattern, handler)`. -/
  | httpHandle (pattern : String)
  /-- The listener of `http.ListenAndServe(addr, nil)` is bound. -/
  | listenBound (addr : String)
  /-- The request `svc.Subscribe(input)` is sent. -/
  | snsSubscribe (input : SubscribeInput)
  /-- The call `wg.Wait()` returned. -/
  | wgWaitReturned
  /-- The call `fmt.Println(msg)`. -/
  | println (msg : String)
  /-- The call `ioutil.ReadAll(r.Body)`. -/
  | readAll
  /-- The call `json.Unmarshal(body, &f)`. -/
  | unmarshal
  /-- The call `http.Error(w, msg, code)`. -/
  | httpError (msg : String) (code : Nat)
  /-- The outbound request `http.Get(url)`. -/
  | httpGet (url : String)
  /-- A panic of `ServeHTTP`, recovered by the `net/http` connection loop. -/
  | handlerPanicRecovered
  deriving DecidableEq, Repr

/-- Values a Go `panic` carries in this program. -/
inductive PanicValue where
  /-- The statement `panic(err)`. -/
  | err (e : String)
  /-- A failed type assertion. -/
  | typeAssertion
  /-- The panic of `WaitGroup.Add`: negative counter. -/
  | negativeCounter
  /-- The panic of `http.Handle`: pattern refused. -/
  | invalidPattern
  deriving DecidableEq, Repr

/-- How a call ends. -/
inductive Outcome where
  | returned
  | panicked (p : PanicValue)
  deriving DecidableEq, Repr

/-- The state shared by the handler and the coordinator: the counter of the
`sync.WaitGroup` behind `handler.wg` (the value of an `int32`), and the
effects so far. -/
structure World where
  counter : Int
  trace : List Event
  deriving DecidableEq, Repr

/-- Append an effect to the trace. -/
def World.emit (w : World) (e : Event) : World :=
  { w with trace := w.trace ++ [e] }

/-- Results of the library calls made by `main.go`. -/
structure Env where
  /-- The result of `session.NewSession` for a region: an error or a session. -/
  newSession : String → Except String Unit
  /-- The result of `url.Parse`: an error, or the `Scheme` and `Path` fields. -/
  urlParse : String → Except String (String × String)
  /-- The result of `svc.Subscribe`. -/
  snsSubscribe : SubscribeInput → Except String Unit
  /-- Whether `http.Handle` accepts the pattern; it panics otherwise. -/
  handleAccepts : String → Bool
  /-- The result of binding the listener address in `http.ListenAndServe`. -/
  listen : String → Except String Unit
  /-- The result of `json.Unmarshal(body, &f)`. -/
  unmarshal : List Nat → Except String GoValue
  /-- The result of `http.Get`: a transport error, or the status code of the
  response. -/
  httpGet : String → Except String Nat
  /-- Whether the server that calls `ServeHTTP` recovers a panic of the
  handler, as the connection loop of `net/http` does, or lets it end the
  process. -/
  recoverHandlerPanic : Bool

/-- An inbound request: `r.Method`, and what `ioutil.ReadAll(r.Body)` gives. -/
structure Request where
  method : String
  body : Except String (List Nat)

/-! ## `sync.WaitGroup` -/

/-- The value of an integer as an `int32`: reduced modulo 2^32 into the range
from -2147483648 to 2147483647. -/
def wrapInt32 (x : Int) : Int := (x + 2147483648) % 4294967296 - 2147483648

/-- The method `WaitGroup.Add`: adds `delta` to the counter, an `int32` that
wraps around, and panics if the counter is negative after the addition (the
addition has happened by then). -/
def wgAdd (delta : Int) (w : World) : Outcome × World :=
  let w1 : World :=
    { counter := wrapInt32 (w.counter + delta), trace := w.trace ++ [Event.wgAdd delta] }
  if w1.counter < 0 then (.panicked .negativeCounter, w1) else (.returned, w1)

/-- The method `WaitGroup.Done`. -/
def wgDone (w : World) : Outcome × World := wgAdd (-1) w

/-! ## The handler -/

/-- The method `handler.confirmSubscription` (main.go:65-72). -/
def confirmSubscription (env : Env) (subscribeURL : String) (w : World) : Outcome × World :=
  let w1 := w.emit (.httpGet subscribeURL)
  match env.httpGet subscribeURL with
  | .error e => (.panicked (.err e), w1)
  | .ok _ => wgDone w1

/-- The method `handler.ServeHTTP` (main.go:74-96). -/
def ServeHTTP (env : Env) (r : Request) (w : World) : Outcome × World :=
  if r.method ≠ MethodPost then
    (.returned, w.emit (.httpError (StatusText StatusMethodNotAllowed) StatusMethodNotAllowed))
  else
    let w1 := w.emit .readAll
    match r.body with
    | .error e => (.panicked (.err e), w1)
    | .ok body =>
      let w2 := w1.emit .unmarshal
      match env.unmarshal body with
      | .error e => (.panicked (.err e), w2)
      | .ok f =>
        match f.assertMap with
        | none => (.panicked .typeAssertion, w2)
        | some data =>
          match (mapIndex data "Type").assertString with
          | none => (.panicked .typeAssertion, w2)
          | some t =>
            if t = subConfirmType then
              match (mapIndex data "SubscribeURL").assertString with
              | none => (.panicked .typeAssertion, w2)
              | some u => confirmSubscription env u w2
            else (.returned, w2)

/-- The URLs of the outbound GET requests in a trace, in order. -/
def gets : List Event → List String
  | [] => []
  | .httpGet u :: es => u :: gets es
  | _ :: es => gets es

/-- The responses written with `http.Error` in a trace, in order. -/
def httpErrors : List Event → List (String × Nat)
  | [] => []
  | .httpError msg code :: es => (msg, code) :: httpErrors es
  | _ :: es => httpErrors es

/-- Deliver the same request to the handler twice, one delivery after the
other; the outcome of each delivery and the final world. -/
def deliverTwice (env : Env) (r : Request) (w : World) : Outcome × Outcome × World :=
  let first := ServeHTTP env r w
  let second := ServeHTTP env r first.2
  (first.1, second.1, second.2)

/-! ## The coordinator `subscribe` -/

/-- The arguments of `subscribe`. -/
structure Args where
  region : String
  topic : String
  endpoint : String
  port : Int

/-- The address `fmt.Sprintf(":%d", port)`. -/
def listenAddr (port : Int) : String := ":" ++ toString port

/-- The message printed on success. -/
def successMessage : String := "Successfully subscribed"

/-- The next statement of the body of `subscribe` (main.go:98-136). -/
inductive MainPC where
  /-- At `session.NewSession` (line 99). -/
  | newSession
  /-- At `url.Parse(endpoint)` (line 108). -/
  | urlParse
  /-- At the creation of the wait group and `wg.Add(1)` (lines 113-114). -/
  | wgAdd
  /-- At the `go` statement (line 115). -/
  | goServe
  /-- At `svc.Subscribe` (line 122). -/
  | snsSubscribe
  /-- At `wg.Wait()` (line 131). -/
  | wgWait
  /-- At `fmt.Println` (line 133). -/
  | println
  /-- After a `return`: `some e` is `return err`, `none` is `return nil`. -/
  | returned (err : Option String)
  deriving DecidableEq, Repr

/-- The next statement of the goroutine started at line 115. -/
inductive ServerPC where
  /-- The `go` statement has not run. -/
  | notStarted
  /-- At `http.Handle(endpointUrl.Path, ...)` (line 116). -/
  | httpHandle
  /-- At `http.ListenAndServe` (line 117), listener not yet bound. -/
  | listenAndServe
  /-- Inside `http.ListenAndServe`, listener bound, serving requests. -/
  | serving
  deriving DecidableEq, Repr

/-- A state of one execution of `subscribe`: the two program counters, the
local `endpointUrl` (its `Scheme` and `Path`), the wait group and the trace,
and the value of an unrecovered panic that ended the process. -/
structure Sys where
  main : MainPC
  server : ServerPC
  endpointUrl : String × String
  world : World
  crashed : Option PanicValue

/-- The state on entry to `subscribe`; the zero `WaitGroup` has counter 0. -/
def Sys.init : Sys :=
  { main := .newSession, server := .notStarted, endpointUrl := ("", ""),
    world := { counter := 0, trace := [] }, crashed := none }

/-- One statement of the main thread of `subscribe`.  `wg.Wait()` is blocked
(the state does not change) while the counter is not zero. -/
def mainStep (env : Env) (a : Args) (s : Sys) : Sys :=
  match s.main with
  | .newSession =>
    let w := s.world.emit (.newSession a.region)
    match env.newSession a.region with
    | .error e => { s with main := .returned (some e), world := w }
    | .ok _ => { s with main := .urlParse, world := w }
  | .urlParse =>
    match env.urlParse a.endpoint with
    | .error e => { s with main := .returned (some e) }
    | .ok u => { s with main := .wgAdd, endpointUrl := u }
  | .wgAdd =>
    match wgAdd 1 s.world with
    | (.panicked p, w) => { s with world := w, crashed := some p }
    | (.returned, w) => { s with main := .goServe, world := w }
  | .goServe =>
    { s with main := .snsSubscribe, server := .httpHandle, world := s.world.emit .goServe }
  | .snsSubscribe =>
    let input : SubscribeInput :=
      { Endpoint := a.endpoint, Protocol := s.endpointUrl.1, TopicArn := a.topic }
    let w := s.world.emit (.snsSubscribe input)
    match env.snsSubscribe input with
    | .error e => { s with main := .returned (some e), world := w }
    | .ok _ => { s with main := .wgWait, world := w }
  | .wgWait =>
    if s.world.counter = 0 then
      { s with main := .println, world := s.world.emit .wgWaitReturned }
    else s
  | .println =>
    { s with main := .returned none, world := s.world.emit (.println successMessage) }
  | .returned _ => s

/-- One statement of the goroutine of lines 115-120.  A panic here is not
recovered and ends the process. -/
def serverStep (env : Env) (a : Args) (s : Sys) : Sys :=
  match s.server with
  | .notStarted => s
  | .httpHandle =>
    if env.handleAccepts s.endpointUrl.2 then
      { s with server := .listenAndServe, world := s.world.emit (.httpHandle s.endpointUrl.2) }
    else { s with crashed := some .invalidPattern }
  | .listenAndServe =>
    match env.listen (listenAddr a.port) with
    | .error e => { s with crashed := some (.err e) }
    | .ok _ => { s with server := .serving, world := s.world.emit (.listenBound (listenAddr a.port)) }
  | .serving => s

/-- A request routed to the registered handler while the listener serves:
`ServeHTTP` runs on the shared wait group; a panic of the handler is
recovered by the server or ends the process, as the environment says.  A
request that arrives while no listener is bound is lost. -/
def deliverStep (env : Env) (r : Request) (s : Sys) : Sys :=
  match s.server with
  | .serving =>
    match ServeHTTP env r s.world with
    | (.returned, w) => { s with world := w }
    | (.panicked p, w) =>
      if env.recoverHandlerPanic then { s with world := w.emit .handlerPanicRecovered }
      else { s with world := w, crashed := some p }
  | _ => s

/-- A choice of the scheduler and of the network: the main thread runs its
next statement, the goroutine runs its next statement, or an inbound request
reaches the handler. -/
inductive Action where
  | main
  | server
  | deliver (r : Request)

/-- Whether the action is a statement of the main thread. -/
def Action.isMain : Action → Bool
  | .main => true
  | _ => false

/-- One step of the system; nothing runs once the process has crashed.  The
goroutine and the handler keep running after the main thread has returned
(the caller of `subscribe` ends the process then), which only adds
executions. -/
def step (env : Env) (a : Args) (act : Action) (s : Sys) : Sys :=
  match s.crashed with
  | some _ => s
  | none =>
    match act with
    | .main => mainStep env a s
    | .server => serverStep env a s
    | .deliver r => deliverStep env r s

/-- Run a schedule from a state. -/
def run (env : Env) (a : Args) : List Action → Sys → Sys
  | [], s => s
  | act :: rest, s => run env a rest (step env a act s)

/-- The number of statements of the main thread in a schedule. -/
def mainSteps (sched : List Action) : Nat := (sched.filter Action.isMain).length

/-- The number of statements of the goroutine in a schedule that come after
the first `k` statements of the main thread. -/
def serverStepsAfter : Nat → List Action → Nat
  | _, [] => 0
  | k, .main :: rest => serverStepsAfter (k - 1) rest
  | k, .server :: rest =>
    if k = 0 then serverStepsAfter 0 rest + 1 else serverStepsAfter k rest
  | k, .deliver _ :: rest => serverStepsAfter k rest

/-- The function `subscribe` (main.go:98-136): the state its execution
reaches from entry under a schedule. -/
def subscribe (env : Env) (a : Args) (sched : List Action) : Sys :=
  run env a sched Sys.init

/-! ## Invariants of the executions of `subscribe` -/

/-- The position of a program counter of the main thread in the body of
`subscribe`. -/
def MainPC.rank : MainPC → Nat
  | .newSession => 0
  | .urlParse => 1
  | .wgAdd => 2
  | .goServe => 3
  | .snsSubscribe => 4
  | .wgWait => 5
  | .println => 6
  | .returned _ => 7

/-- The number of statements the goroutine has completed. -/
def ServerPC.rank : ServerPC → Nat
  | .notStarted => 0
  | .httpHandle => 0
  | .listenAndServe => 1
  | .serving => 2

/-- Events that only the main thread of `subscribe` emits. -/
def Event.ofMain : Event → Bool
  | .newSession _ => true
  | .wgAdd delta => decide (0 < delta)
  | .goServe => true
  | .snsSubscribe _ => true
  | .wgWaitReturned => true
  | .println _ => true
  | _ => false

/-- Events that only the handler emits. -/
def Event.ofHandler : Event → Bool
  | .readAll => true
  | .unmarshal => true
  | .httpError _ _ => true
  | .httpGet _ => true
  | .wgAdd delta => decide (delta < 0)
  | .handlerPanicRecovered => true
  | _ => false

/-- The `Subscribe` request that `subscribe` builds from its arguments. -/
def subscribeInput (env : Env) (a : Args) : SubscribeInput :=
  match env.urlParse a.endpoint with
  | .ok u => { Endpoint := a.endpoint, Protocol := u.1, TopicArn := a.topic }
  | .error _ => { Endpoint := a.endpoint, Protocol := "", TopicArn := a.topic }

/-- The events the main thread has emitted when it stands at a program
counter. -/
def mainEvents (env : Env) (a : Args) : MainPC → List Event
  | .newSession => []
  | .urlParse => [.newSession a.region]
  | .wgAdd => [.newSession a.region]
  | .goServe => [.newSession a.region, .wgAdd 1]
  | .snsSubscribe => [.newSession a.region, .wgAdd 1, .goServe]
  | .wgWait => [.newSession a.region, .wgAdd 1, .goServe, .snsSubscribe (subscribeInput env a)]
  | .println =>
    [.newSession a.region, .wgAdd 1, .goServe, .snsSubscribe (subscribeInput env a),
      .wgWaitReturned]
  | .returned none =>
    [.newSession a.region, .wgAdd 1, .goServe, .snsSubscribe (subscribeInput env a),
      .wgWaitReturned, .println successMessage]
  | .returned (some _) =>
    match env.newSession a.region, env.urlParse a.endpoint with
    | .ok _, .ok _ =>
      [.newSession a.region, .wgAdd 1, .goServe, .snsSubscribe (subscribeInput env a)]
    | _, _ => [.newSession a.region]

/-- What the program counter of the main thread tells about the results of
the calls made so far. -/
def pcFacts (env : Env) (a : Args) (s : Sys) : Prop :=
  match s.main with
  | .newSession => True
  | .urlParse => env.newSession a.region = .ok ()
  | .wgAdd | .goServe | .snsSubscribe =>
    env.newSession a.region = .ok () ∧ env.urlParse a.endpoint = .ok s.endpointUrl
  | .wgWait | .println | .returned none =>
    env.newSession a.region = .ok () ∧ env.urlParse a.endpoint = .ok s.endpointUrl ∧
      env.snsSubscribe (subscribeInput env a) = .ok ()
  | .returned (some e) =>
    env.newSession a.region = .error e ∨
    (env.newSession a.region = .ok () ∧ env.urlParse a.endpoint = .error e) ∨
    (env.newSession a.region = .ok () ∧ env.urlParse a.endpoint = .ok s.endpointUrl ∧
      env.snsSubscribe (subscribeInput env a) = .error e)

/-- The wait count while the goroutine has not been started. -/
def earlyCounter : MainPC → Int
  | .goServe => 1
  | _ => 0

/-- The invariant of the executions of `subscribe` from `Sys.init`. -/
structure Inv (env : Env) (a : Args) (s : Sys) : Prop where
  /-- The main thread has emitted the events of its program counter. -/
  mainTrace : s.world.trace.filter Event.ofMain = mainEvents env a s.main
  /-- The calls before the program counter had the results it implies. -/
  facts : pcFacts env a s
  /-- Before the `go` statement only the main thread has run. -/
  early : s.server = .notStarted →
    s.crashed = none ∧ s.world.trace = mainEvents env a s.main ∧
      s.world.counter = earlyCounter s.main ∧ (s.main.rank ≤ 3 ∨ 7 ≤ s.main.rank)
  /-- The goroutine runs only after the `go` statement. -/
  started : s.server ≠ .notStarted →
    env.newSession a.region = .ok () ∧ env.urlParse a.endpoint = .ok s.endpointUrl ∧
      4 ≤ s.main.rank
  /-- A registered pattern is the path of the endpoint. -/
  handled : ∀ p, Event.httpHandle p ∈ s.world.trace →
    p = s.endpointUrl.2 ∧ env.handleAccepts p = true
  /-- A bound listener is on the port of the arguments. -/
  bound : ∀ addr, Event.listenBound addr ∈ s.world.trace →
    addr = listenAddr a.port ∧ env.listen addr = .ok ()
  /-- Once the goroutine is started, the wait count is 1 as long as no
  `wg.Done()` has been called. -/
  doneSeen : s.server ≠ .notStarted → Event.wgAdd (-1) ∉ s.world.trace →
    s.world.counter = 1
  /-- The goroutine has emitted the events of its program counter. -/
  serverTrace :
    (s.server = .listenAndServe → Event.httpHandle s.endpointUrl.2 ∈ s.world.trace) ∧
    (s.server = .serving → Event.httpHandle s.endpointUrl.2 ∈ s.world.trace ∧
      Event.listenBound (listenAddr a.port) ∈ s.world.trace)

/-! ## Sample inputs

A sample environment that agrees with the Go libraries on the inputs used
below, and sample requests. -/

/-- The bytes of an ASCII text. -/
def bytesOf (text : String) : List Nat := text.toList.map Char.toNat

/-- The confirmation URL of the sample callback. -/
def sampleURL : String := "http://fake/confirm"

/-- The body of a confirmation callback. -/
def confirmationText : String :=
  "\x7b\"Type\":\"SubscriptionConfirmation\",\"SubscribeURL\":\"http://fake/confirm\"\x7d"

/-- The body of a topic notification. -/
def notificationText : String := "\x7b\"Type\":\"Notification\"\x7d"

/-- A body whose `Type` is a number. -/
def numberTypeText : String := "\x7b\"Type\":5\x7d"

/-- The decoding of the three sample bodies by `json.Unmarshal`; other bodies
are not used and are reported as errors. -/
def sampleUnmarshal (body : List Nat) : Except String GoValue :=
  if body = bytesOf confirmationText then
    .ok (.map [("Type", .string "SubscriptionConfirmation"), ("SubscribeURL", .string "http://fake/confirm")])
  else if body = bytesOf notificationText then
    .ok (.map [("Type", .string "Notification")])
  else if body = bytesOf numberTypeText then
    .ok (.map [("Type", .float64 "5")])
  else .error "invalid character"

/-- The parsing of the sample endpoints by `url.Parse`. -/
def sampleUrlParse (endpoint : String) : Except String (String × String) :=
  if endpoint = "http://localhost:9001/cb" then .ok ("http", "/cb")
  else if endpoint = "http://localhost:9001" then .ok ("http", "")
  else .error "missing protocol scheme"

/-- An environment in which every remote call succeeds, and which agrees with
`http.Handle` on the two patterns used: `/cb` is accepted and the empty
pattern is refused. -/
def sampleEnv : Env :=
  { newSession := fun _ => .ok ()
    urlParse := sampleUrlParse
    snsSubscribe := fun _ => .ok ()
    handleAccepts := fun pattern => pattern == "/cb"
    listen := fun _ => .ok ()
    unmarshal := sampleUnmarshal
    httpGet := fun _ => .ok 200
    recoverHandlerPanic := true }

/-- The sample environment with a failing `http.Get`. -/
def getFailsEnv : Env := { sampleEnv with httpGet := fun _ => .error "connection refused" }

/-- The sample environment with a failing `session.NewSession`. -/
def sessionFailsEnv : Env := { sampleEnv with newSession := fun _ => .error "no credentials" }

/-- The sample environment with a failing `svc.Subscribe`. -/
def subscribeFailsEnv : Env := { sampleEnv with snsSubscribe := fun _ => .error "InvalidParameter" }

/-- The arguments of end-to-end scenario 1. -/
def sampleArgs : Args :=
  { region := "us-east-1", topic := "arn:aws:sns:us-east-1:1:t",
    endpoint := "http://localhost:9001/cb", port := 9001 }

/-- The sample arguments with an endpoint that has no path. -/
def noPathArgs : Args := { sampleArgs with endpoint := "http://localhost:9001" }

/-- The sample arguments with an endpoint that does not parse. -/
def badEndpointArgs : Args := { sampleArgs with endpoint := ":" }

/-- A confirmation callback. -/
def confirmationRequest : Request := { method := "POST", body := .ok (bytesOf confirmationText) }

/-- A topic notification. -/
def notificationRequest : Request := { method := "POST", body := .ok (bytesOf notificationText) }

/-- A POST whose `Type` is a number. -/
def numberTypeRequest : Request := { method := "POST", body := .ok (bytesOf numberTypeText) }

/-- A POST whose body is not JSON. -/
def garbageRequest : Request := { method := "POST", body := .ok (bytesOf "not json") }

/-- A GET whose body is not JSON. -/
def getRequest : Request := { method := "GET", body := .ok (bytesOf "not json") }

/-- The pending handshake state: wait count 1, nothing observed yet. -/
def pendingWorld : World := { counter := 1, trace := [] }

/-- The completed handshake state: wait count 0. -/
def completedWorld : World := { counter := 0, trace := [] }

/-- The goroutine registers and binds before the main thread sends the
request. -/
def serverFirstSchedule : List Action :=
  [.main, .main, .main, .main, .server, .server, .main]

/-- The main thread sends the request before the goroutine runs. -/
def mainFirstSchedule : List Action := [.main, .main, .main, .main, .main]

/-- The main thread sends the request, then the goroutine runs. -/
def serverLastSchedule : List Action :=
  [.main, .main, .main, .main, .main, .server, .server]

/-- A schedule in which the listener is up and a confirmation callback is
served before the main thread sends the `Subscribe` request and waits. -/
def confirmedEarlySchedule : List Action :=
  [.main, .main, .main, .main, .server, .server, .deliver confirmationRequest,
    .main, .main, .main]

/-! ## Theorems about the handler -/

theorem wrapInt32_of_range (x : Int) (hlo : -2147483648 ≤ x) (hhi : x < 2147483648) :
    wrapInt32 x = x := by
  unfold wrapInt32
  omega

@[simp] theorem wrapInt32_zero : wrapInt32 0 = 0 := by decide

@[simp] theorem wrapInt32_one : wrapInt32 1 = 1 := by decide

@[simp] theorem wrapInt32_neg_one : wrapInt32 (-1) = -1 := by decide

theorem gets_append (l1 l2 : List Event) : gets (l1 ++ l2) = gets l1 ++ gets l2 := by
  induction l1 with
  | nil => rfl
  | cons e es ih => cases e <;> simp [gets, ih]

theorem httpErrors_append (l1 l2 : List Event) :
    httpErrors (l1 ++ l2) = httpErrors l1 ++ httpErrors l2 := by
  induction l1 with
  | nil => rfl
  | cons e es ih => cases e <;> simp [httpErrors, ih]

/-- On a POST whose body decodes to an object with a string `Type`, the
handler reaches the comparison with `subConfirmType`. -/
theorem ServeHTTP_string_type (env : Env) (r : Request) (w : World) (body : List Nat)
    (data : List (String × GoValue)) (t : String)
    (hm : r.method = MethodPost) (hb : r.body = .ok body)
    (hu : env.unmarshal body = .ok (.map data))
    (ht : data.lookup "Type" = some (.string t)) :
    ServeHTTP env r w =
      if t = subConfirmType then
        match (mapIndex data "SubscribeURL").assertString with
        | none => (.panicked .typeAssertion, (w.emit .readAll).emit .unmarshal)
        | some u => confirmSubscription env u ((w.emit .readAll).emit .unmarshal)
      else (.returned, (w.emit .readAll).emit .unmarshal) := by
  simp [ServeHTTP, hm, hb, hu, GoValue.assertMap, mapIndex, ht, GoValue.assertString]

/-- C1, counterexample: a POST whose body is the object with `Type` 5 has a
`Type` that is not "SubscriptionConfirmation", and the handler panics in the
type assertion instead of returning. -/
theorem ServeHTTP_number_type_panics :
    numberTypeRequest.method = MethodPost ∧
    numberTypeRequest.body = .ok (bytesOf numberTypeText) ∧
    sampleEnv.unmarshal (bytesOf numberTypeText) = .ok (.map [("Type", .float64 "5")]) ∧
    GoValue.float64 "5" ≠ GoValue.string subConfirmType ∧
    (ServeHTTP sampleEnv numberTypeRequest pendingWorld).1 = .panicked .typeAssertion := by
  refine ⟨rfl, rfl, ?_, ?_, ?_⟩
  · simp [sampleEnv, sampleUnmarshal, bytesOf, numberTypeText, confirmationText, notificationText]
  · simp
  · decide

/-- C1, amended: on a POST whose body decodes to an object whose `Type` is a
string other than "SubscriptionConfirmation", the handler returns normally, writes no
error status, issues no GET (so `confirmSubscription` is not invoked) and
leaves the wait count unchanged. -/
theorem ServeHTTP_other_type_returns (env : Env) (r : Request) (w : World) (body : List Nat)
    (data : List (String × GoValue)) (t : String)
    (hm : r.method = MethodPost) (hb : r.body = .ok body)
    (hu : env.unmarshal body = .ok (.map data))
    (ht : data.lookup "Type" = some (.string t)) (hne : t ≠ subConfirmType) :
    ServeHTTP env r w = (.returned, (w.emit .readAll).emit .unmarshal) ∧
    httpErrors (ServeHTTP env r w).2.trace = httpErrors w.trace ∧
    gets (ServeHTTP env r w).2.trace = gets w.trace ∧
    (ServeHTTP env r w).2.counter = w.counter := by
  rw [ServeHTTP_string_type env r w body data t hm hb hu ht]
  simp [hne, World.emit, gets_append, httpErrors_append, gets, httpErrors]

theorem ServeHTTP_other_type_returns_witness :
    ServeHTTP sampleEnv notificationRequest pendingWorld
      = (.returned, (pendingWorld.emit .readAll).emit .unmarshal) ∧
    httpErrors (ServeHTTP sampleEnv notificationRequest pendingWorld).2.trace
      = httpErrors pendingWorld.trace ∧
    gets (ServeHTTP sampleEnv notificationRequest pendingWorld).2.trace = gets pendingWorld.trace ∧
    (ServeHTTP sampleEnv notificationRequest pendingWorld).2.counter = pendingWorld.counter :=
  ServeHTTP_other_type_returns sampleEnv notificationRequest pendingWorld
    (bytesOf notificationText) [("Type", .string "Notification")] "Notification" rfl rfl
    (by simp [sampleEnv, sampleUnmarshal, bytesOf, notificationText, confirmationText])
    (by simp [List.lookup]) (by decide)

/-- C2: on a POST whose body decodes to an object with `Type`
"SubscriptionConfirmation" and a string `SubscribeURL` u, the handler is one
call of `confirmSubscription` with u, made after the body is read and decoded
and before the handler returns, and exactly one GET, to u, is added to the
trace. -/
theorem ServeHTTP_confirmation_invokes_once (env : Env) (r : Request) (w : World)
    (body : List Nat) (data : List (String × GoValue)) (u : String)
    (hm : r.method = MethodPost) (hb : r.body = .ok body)
    (hu : env.unmarshal body = .ok (.map data))
    (ht : data.lookup "Type" = some (.string subConfirmType))
    (hs : data.lookup "SubscribeURL" = some (.string u)) :
    ServeHTTP env r w = confirmSubscription env u ((w.emit .readAll).emit .unmarshal) ∧
    gets (ServeHTTP env r w).2.trace = gets w.trace ++ [u] := by
  rw [ServeHTTP_string_type env r w body data subConfirmType hm hb hu ht]
  simp only [if_true, mapIndex, hs, GoValue.assertString, true_and]
  unfold confirmSubscription wgDone wgAdd
  cases env.httpGet u
  · simp [World.emit, gets_append, gets]
  · simp only [World.emit]
    split <;> simp [gets_append, gets]

theorem ServeHTTP_confirmation_invokes_once_witness :
    ServeHTTP sampleEnv confirmationRequest pendingWorld
      = confirmSubscription sampleEnv sampleURL ((pendingWorld.emit .readAll).emit .unmarshal) ∧
    gets (ServeHTTP sampleEnv confirmationRequest pendingWorld).2.trace
      = gets pendingWorld.trace ++ [sampleURL] :=
  ServeHTTP_confirmation_invokes_once sampleEnv confirmationRequest pendingWorld
    (bytesOf confirmationText)
    [("Type", .string "SubscriptionConfirmation"), ("SubscribeURL", .string "http://fake/confirm")]
    sampleURL rfl rfl
    (by simp [sampleEnv, sampleUnmarshal])
    (by simp [List.lookup, subConfirmType]) (by simp [List.lookup, sampleURL])

/-- C3, counterexample: from the pending state, the second delivery of the
same confirmation body, with both GETs succeeding, issues a second GET,
takes the counter from 0 to -1 and panics; the state after two deliveries
differs from the state after one. -/
theorem deliverTwice_second_delivery_panics :
    pendingWorld.counter = 1 ∧
    sampleEnv.httpGet sampleURL = .ok 200 ∧
    ServeHTTP sampleEnv confirmationRequest pendingWorld
      = (.returned,
          { counter := 0, trace := [.readAll, .unmarshal, .httpGet sampleURL, .wgAdd (-1)] }) ∧
    deliverTwice sampleEnv confirmationRequest pendingWorld
      = (.returned, .panicked .negativeCounter,
          { counter := -1,
            trace := [.readAll, .unmarshal, .httpGet sampleURL, .wgAdd (-1),
                      .readAll, .unmarshal, .httpGet sampleURL, .wgAdd (-1)] }) := by
  refine ⟨rfl, rfl, ?_, ?_⟩ <;> decide

/-- C3, amended: from the pending state (wait count 1), the first delivery of
a confirmation body whose GET succeeds returns normally and moves the count
to 0; a second delivery of the same body whose GET succeeds issues a second
GET to the same URL, moves the count to -1 and panics in `wg.Done`. -/
theorem deliverTwice_not_idempotent (env : Env) (r : Request) (w : World)
    (body : List Nat) (data : List (String × GoValue)) (u : String) (code : Nat)
    (hm : r.method = MethodPost) (hb : r.body = .ok body)
    (hu : env.unmarshal body = .ok (.map data))
    (ht : data.lookup "Type" = some (.string subConfirmType))
    (hs : data.lookup "SubscribeURL" = some (.string u))
    (hget : env.httpGet u = .ok code) (hc : w.counter = 1) :
    ServeHTTP env r w
      = (.returned,
          { counter := 0, trace := w.trace ++ [.readAll, .unmarshal, .httpGet u, .wgAdd (-1)] }) ∧
    deliverTwice env r w
      = (.returned, .panicked .negativeCounter,
          { counter := -1,
            trace := w.trace ++ [.readAll, .unmarshal, .httpGet u, .wgAdd (-1),
                                 .readAll, .unmarshal, .httpGet u, .wgAdd (-1)] }) := by
  have key : ∀ w0 : World, ServeHTTP env r w0 =
      wgDone (((w0.emit .readAll).emit .unmarshal).emit (.httpGet u)) := by
    intro w0
    rw [ServeHTTP_string_type env r w0 body data subConfirmType hm hb hu ht]
    simp [mapIndex, hs, GoValue.assertString, confirmSubscription, hget]
  have h1 : ServeHTTP env r w = (.returned,
      { counter := 0, trace := w.trace ++ [.readAll, .unmarshal, .httpGet u, .wgAdd (-1)] }) := by
    rw [key]
    simp [wgDone, wgAdd, World.emit, hc]
  refine ⟨h1, ?_⟩
  simp only [deliverTwice, h1]
  rw [key]
  simp [wgDone, wgAdd, World.emit]

theorem deliverTwice_not_idempotent_witness :
    ServeHTTP sampleEnv confirmationRequest pendingWorld
      = (.returned,
          { counter := 0,
            trace := pendingWorld.trace ++ [.readAll, .unmarshal, .httpGet sampleURL, .wgAdd (-1)] }) ∧
    deliverTwice sampleEnv confirmationRequest pendingWorld
      = (.returned, .panicked .negativeCounter,
          { counter := -1,
            trace := pendingWorld.trace ++ [.readAll, .unmarshal, .httpGet sampleURL, .wgAdd (-1),
                                            .readAll, .unmarshal, .httpGet sampleURL, .wgAdd (-1)] }) :=
  deliverTwice_not_idempotent sampleEnv confirmationRequest pendingWorld
    (bytesOf confirmationText)
    [("Type", .string "SubscriptionConfirmation"), ("SubscribeURL", .string "http://fake/confirm")]
    sampleURL 200 rfl rfl
    (by simp [sampleEnv, sampleUnmarshal])
    (by simp [List.lookup, subConfirmType]) (by simp [List.lookup, sampleURL]) rfl rfl

/-- C4: whatever the body and the results of the library calls, a request
whose method is not POST gets the response 405 Method Not Allowed and
nothing else happens: the handler returns without panicking, the trace gains
the one `http.Error` event (no read of the body, no decoding, no GET) and the
wait count is unchanged. -/
theorem ServeHTTP_not_post (env : Env) (r : Request) (w : World)
    (h : r.method ≠ MethodPost) :
    ServeHTTP env r w
      = (.returned,
          { counter := w.counter, trace := w.trace ++ [.httpError "Method Not Allowed" 405] }) ∧
    gets (ServeHTTP env r w).2.trace = gets w.trace ∧
    ∀ (env2 : Env) (body2 : Except String (List Nat)),
      ServeHTTP env2 { method := r.method, body := body2 } w = ServeHTTP env r w := by
  have key : ∀ (e : Env) (q : Request), q.method = r.method → ServeHTTP e q w
      = (.returned,
          { counter := w.counter, trace := w.trace ++ [.httpError "Method Not Allowed" 405] }) := by
    intro e q hq
    simp [ServeHTTP, hq, h, World.emit, StatusText, StatusMethodNotAllowed]
  refine ⟨key env r rfl, ?_, ?_⟩
  · rw [key env r rfl]
    simp [gets_append, gets]
  · intro env2 body2
    rw [key env r rfl]
    exact key env2 _ rfl

theorem ServeHTTP_not_post_witness :
    ServeHTTP sampleEnv getRequest pendingWorld
      = (.returned,
          { counter := pendingWorld.counter,
            trace := pendingWorld.trace ++ [.httpError "Method Not Allowed" 405] }) ∧
    gets (ServeHTTP sampleEnv getRequest pendingWorld).2.trace = gets pendingWorld.trace ∧
    ∀ (env2 : Env) (body2 : Except String (List Nat)),
      ServeHTTP env2 { method := getRequest.method, body := body2 } pendingWorld
        = ServeHTTP sampleEnv getRequest pendingWorld :=
  ServeHTTP_not_post sampleEnv getRequest pendingWorld (by decide)

/-- C8, counterexample: with the wait count already at 0 (the handshake
completed), a GET that returns status 200 and no transport error makes
`confirmSubscription` panic in `wg.Done`, while the same GET from the pending
state returns normally: the outcome is not decided by the transport error
alone. -/
theorem confirmSubscription_completed_panics :
    sampleEnv.httpGet sampleURL = .ok 200 ∧
    confirmSubscription sampleEnv sampleURL completedWorld
      = (.panicked .negativeCounter,
          { counter := -1, trace := [.httpGet sampleURL, .wgAdd (-1)] }) ∧
    confirmSubscription sampleEnv sampleURL pendingWorld
      = (.returned, { counter := 0, trace := [.httpGet sampleURL, .wgAdd (-1)] }) := by
  refine ⟨rfl, ?_, ?_⟩ <;> decide

/-- C8, amended: while the handshake is pending (wait count at least 1, an
`int32`), the result of `confirmSubscription` depends on the GET only through
whether it returns a transport error: for every response without error,
whatever its status code, the call returns normally after one GET and one
`wg.Done`, the wait count decremented exactly once.  In every state, a
transport error makes the call panic with that error, the wait count
unchanged and no `wg.Done`.  When the wait count is 0 or negative (above the
least `int32`), a response without error still decrements it once and the
call then panics in `wg.Done`. -/
theorem confirmSubscription_outcome_pending (env : Env) (url : String) (w : World) :
    (∀ code : Nat, env.httpGet url = .ok code →
      0 < w.counter → w.counter < 2147483648 →
      confirmSubscription env url w
        = (.returned,
            { counter := w.counter - 1, trace := w.trace ++ [.httpGet url, .wgAdd (-1)] })) ∧
    (∀ e : String, env.httpGet url = .error e →
      confirmSubscription env url w
        = (.panicked (.err e), { counter := w.counter, trace := w.trace ++ [.httpGet url] })) ∧
    (∀ code : Nat, env.httpGet url = .ok code →
      w.counter ≤ 0 → -2147483648 < w.counter →
      confirmSubscription env url w
        = (.panicked .negativeCounter,
            { counter := w.counter - 1, trace := w.trace ++ [.httpGet url, .wgAdd (-1)] })) := by
  refine ⟨?_, ?_, ?_⟩
  · intro code hget hpos hhi
    have hw : wrapInt32 (w.counter + -1) = w.counter - 1 := by
      rw [wrapInt32_of_range _ (by omega) (by omega)]
      omega
    simp only [confirmSubscription, hget, wgDone, wgAdd, World.emit, hw]
    rw [if_neg (by omega)]
    simp
  · intro e hget
    simp [confirmSubscription, hget, World.emit]
  · intro code hget hneg hlo
    have hw : wrapInt32 (w.counter + -1) = w.counter - 1 := by
      rw [wrapInt32_of_range _ (by omega) (by omega)]
      omega
    simp only [confirmSubscription, hget, wgDone, wgAdd, World.emit, hw]
    rw [if_pos (by omega)]
    simp

/-- C8, witness: from the pending state, a response with status 200 and a
refused connection. -/
theorem confirmSubscription_outcome_pending_witness :
    confirmSubscription sampleEnv sampleURL pendingWorld
      = (.returned,
          { counter := pendingWorld.counter - 1,
            trace := pendingWorld.trace ++ [.httpGet sampleURL, .wgAdd (-1)] }) ∧
    confirmSubscription getFailsEnv sampleURL pendingWorld
      = (.panicked (.err "connection refused"),
          { counter := pendingWorld.counter,
            trace := pendingWorld.trace ++ [.httpGet sampleURL] }) :=
  ⟨(confirmSubscription_outcome_pending sampleEnv sampleURL pendingWorld).1 200 rfl
      (by decide) (by decide),
   (confirmSubscription_outcome_pending getFailsEnv sampleURL pendingWorld).2.1
      "connection refused" rfl⟩

/-- C9: a POST whose body is not valid JSON, or decodes to something that is
not an object, or to an object whose `Type` is absent or not a string, or to
an object with `Type` "SubscriptionConfirmation" whose `SubscribeURL` is absent
or not a string, makes the handler panic: no response is written, no GET is
issued (`confirmSubscription` is not invoked) and the wait count is
unchanged. -/
theorem ServeHTTP_malformed_panics (env : Env) (r : Request) (w : World) (body : List Nat)
    (hm : r.method = MethodPost) (hb : r.body = .ok body)
    (hbad :
      (∃ e, env.unmarshal body = .error e) ∨
      (∃ f, env.unmarshal body = .ok f ∧ ∀ data, f ≠ .map data) ∨
      (∃ data, env.unmarshal body = .ok (.map data) ∧
        (data.lookup "Type" = none ∨
          ∃ v, data.lookup "Type" = some v ∧ ∀ t, v ≠ .string t)) ∨
      (∃ data, env.unmarshal body = .ok (.map data) ∧
        data.lookup "Type" = some (.string subConfirmType) ∧
        (data.lookup "SubscribeURL" = none ∨
          ∃ v, data.lookup "SubscribeURL" = some v ∧ ∀ u, v ≠ .string u))) :
    (∃ p, (ServeHTTP env r w).1 = .panicked p) ∧
    (ServeHTTP env r w).2 = { counter := w.counter, trace := w.trace ++ [.readAll, .unmarshal] } ∧
    httpErrors (ServeHTTP env r w).2.trace = httpErrors w.trace ∧
    gets (ServeHTTP env r w).2.trace = gets w.trace := by
  have notString : ∀ v : GoValue, (∀ t, v ≠ .string t) → v.assertString = none := by
    intro v hv
    cases v <;> simp [GoValue.assertString] at hv ⊢
  have notMap : ∀ f : GoValue, (∀ data, f ≠ .map data) → f.assertMap = none := by
    intro f hf
    cases f <;> simp [GoValue.assertMap] at hf ⊢
  have key : ∃ p, ServeHTTP env r w
      = (.panicked p, { counter := w.counter, trace := w.trace ++ [.readAll, .unmarshal] }) := by
    rcases hbad with ⟨e, he⟩ | ⟨f, hf, hnm⟩ | ⟨data, hd, hty⟩ | ⟨data, hd, hty, hurl⟩
    · exact ⟨.err e, by simp [ServeHTTP, hm, hb, he, World.emit]⟩
    · exact ⟨.typeAssertion, by simp [ServeHTTP, hm, hb, hf, notMap f hnm, World.emit]⟩
    · refine ⟨.typeAssertion, ?_⟩
      rcases hty with hnone | ⟨v, hv, hns⟩
      · simp [ServeHTTP, hm, hb, hd, GoValue.assertMap, mapIndex, hnone,
          GoValue.assertString, World.emit]
      · simp [ServeHTTP, hm, hb, hd, GoValue.assertMap, mapIndex, hv,
          notString v hns, World.emit]
    · refine ⟨.typeAssertion, ?_⟩
      rw [ServeHTTP_string_type env r w body data subConfirmType hm hb hd hty]
      rcases hurl with hnone | ⟨v, hv, hns⟩
      · simp [mapIndex, hnone, GoValue.assertString, World.emit]
      · simp [mapIndex, hv, notString v hns, World.emit]
  obtain ⟨p, hp⟩ := key
  refine ⟨⟨p, by rw [hp]⟩, by rw [hp], ?_, ?_⟩ <;> rw [hp] <;>
    simp [gets_append, httpErrors_append, gets, httpErrors]

theorem ServeHTTP_malformed_panics_witness :
    (∃ p, (ServeHTTP sampleEnv garbageRequest pendingWorld).1 = .panicked p) ∧
    (ServeHTTP sampleEnv garbageRequest pendingWorld).2
      = { counter := pendingWorld.counter, trace := pendingWorld.trace ++ [.readAll, .unmarshal] } ∧
    httpErrors (ServeHTTP sampleEnv garbageRequest pendingWorld).2.trace
      = httpErrors pendingWorld.trace ∧
    gets (ServeHTTP sampleEnv garbageRequest pendingWorld).2.trace = gets pendingWorld.trace :=
  ServeHTTP_malformed_panics sampleEnv garbageRequest pendingWorld (bytesOf "not json") rfl rfl
    (Or.inl ⟨"invalid character", by
      simp [sampleEnv, sampleUnmarshal, bytesOf, confirmationText, notificationText,
        numberTypeText]⟩)

/-! ## Theorems about the coordinator -/

theorem run_append (env : Env) (a : Args) (p q : List Action) (s : Sys) :
    run env a (p ++ q) s = run env a q (run env a p s) := by
  induction p generalizing s with
  | nil => rfl
  | cons act rest ih => simp [run, ih]

theorem step_of_crashed (env : Env) (a : Args) (act : Action) (s : Sys) (p : PanicValue)
    (h : s.crashed = some p) : step env a act s = s := by
  simp [step, h]

theorem run_of_crashed (env : Env) (a : Args) (sched : List Action) (s : Sys) (p : PanicValue)
    (h : s.crashed = some p) : run env a sched s = s := by
  induction sched with
  | nil => rfl
  | cons act rest ih => simp [run, step_of_crashed env a act s p h, ih]

theorem run_invariant (env : Env) (a : Args) (P : Sys → Prop)
    (hstep : ∀ act s, P s → P (step env a act s)) :
    ∀ (sched : List Action) (s : Sys), P s → P (run env a sched s) := by
  intro sched
  induction sched with
  | nil => intro s h; exact h
  | cons act rest ih => intro s h; exact ih _ (hstep act s h)

theorem ofHandler_not_ofMain (e : Event) (h : e.ofHandler = true) : e.ofMain = false := by
  cases e <;> simp [Event.ofHandler, Event.ofMain] at h ⊢
  omega

theorem ServeHTTP_trace (env : Env) (r : Request) (w : World) :
    ∃ ext, (ServeHTTP env r w).2.trace = w.trace ++ ext ∧ (∀ e ∈ ext, e.ofHandler = true) ∧
      ((ServeHTTP env r w).2.counter = w.counter ∨ Event.wgAdd (-1) ∈ ext) := by
  unfold ServeHTTP
  split
  · exact ⟨[_], rfl, by simp [Event.ofHandler], Or.inl rfl⟩
  · simp only [World.emit]
    split
    · exact ⟨[.readAll], rfl, by simp [Event.ofHandler], Or.inl rfl⟩
    · split
      · exact ⟨[.readAll, .unmarshal], by simp, by simp [Event.ofHandler], Or.inl rfl⟩
      · split
        · exact ⟨[.readAll, .unmarshal], by simp, by simp [Event.ofHandler], Or.inl rfl⟩
        · split
          · exact ⟨[.readAll, .unmarshal], by simp, by simp [Event.ofHandler], Or.inl rfl⟩
          · split
            · split
              · exact ⟨[.readAll, .unmarshal], by simp, by simp [Event.ofHandler], Or.inl rfl⟩
              · rename_i u _
                unfold confirmSubscription wgDone wgAdd
                simp only [World.emit]
                split
                · exact ⟨[.readAll, .unmarshal, .httpGet u], by simp,
                    by simp [Event.ofHandler], Or.inl rfl⟩
                · split <;>
                    exact ⟨[.readAll, .unmarshal, .httpGet u, .wgAdd (-1)], by simp,
                      by simp [Event.ofHandler], Or.inr (by simp)⟩
            · exact ⟨[.readAll, .unmarshal], by simp, by simp [Event.ofHandler], Or.inl rfl⟩

theorem deliverStep_shape (env : Env) (r : Request) (s : Sys) :
    deliverStep env r s = s ∨
    (s.server = .serving ∧
      (deliverStep env r s).main = s.main ∧ (deliverStep env r s).server = s.server ∧
      (deliverStep env r s).endpointUrl = s.endpointUrl ∧
      ∃ ext, (deliverStep env r s).world.trace = s.world.trace ++ ext ∧
        (∀ e ∈ ext, e.ofHandler = true) ∧
        ((deliverStep env r s).world.counter = s.world.counter ∨ Event.wgAdd (-1) ∈ ext)) := by
  unfold deliverStep
  split
  · right
    rename_i hs
    obtain ⟨ext, hext, hall, hcnt⟩ := ServeHTTP_trace env r s.world
    split
    · rename_i w hw
      rw [hw] at hext hcnt
      exact ⟨hs, rfl, rfl, rfl, ext, hext, hall, hcnt⟩
    · rename_i p w hw
      rw [hw] at hext hcnt
      split
      · refine ⟨hs, rfl, rfl, rfl, ext ++ [.handlerPanicRecovered], ?_, ?_, ?_⟩
        · simp only [World.emit]
          simp at hext
          rw [hext, List.append_assoc]
        · intro e he
          rcases List.mem_append.mp he with h | h
          · exact hall e h
          · simp at h
            subst h
            rfl
        · rcases hcnt with h | h
          · exact Or.inl h
          · exact Or.inr (List.mem_append_left _ h)
      · exact ⟨hs, rfl, rfl, rfl, ext, hext, hall, hcnt⟩
  · left; rfl

theorem Inv_init (env : Env) (a : Args) : Inv env a Sys.init := by
  constructor <;> simp [Sys.init, mainEvents, pcFacts, earlyCounter, MainPC.rank]

theorem Inv_extend (env : Env) (a : Args) (s t : Sys) (ext : List Event) (h : Inv env a s)
    (hserver : s.server ≠ .notStarted) (hmain : t.main = s.main) (hsrv : t.server = s.server)
    (hurl : t.endpointUrl = s.endpointUrl) (htrace : t.world.trace = s.world.trace ++ ext)
    (hext : ∀ e ∈ ext, e.ofHandler = true)
    (hcnt : t.world.counter = s.world.counter ∨ Event.wgAdd (-1) ∈ ext) : Inv env a t := by
  have hfilter : ext.filter Event.ofMain = [] := by
    rw [List.filter_eq_nil_iff]
    intro e he
    simp [ofHandler_not_ofMain e (hext e he)]
  have hmem : ∀ e : Event, e.ofHandler = false → e ∈ t.world.trace → e ∈ s.world.trace := by
    intro e hne he
    rw [htrace] at he
    rcases List.mem_append.mp he with h1 | h1
    · exact h1
    · rw [hext e h1] at hne
      cases hne
  constructor
  · rw [htrace, List.filter_append, hfilter, List.append_nil, hmain]
    exact h.mainTrace
  · have := h.facts
    unfold pcFacts at this ⊢
    rw [hmain, hurl]
    exact this
  · intro hn
    rw [hsrv] at hn
    exact absurd hn hserver
  · intro _
    rw [hurl, hmain]
    exact h.started hserver
  · intro p hp
    rw [hurl]
    exact h.handled p (hmem _ rfl hp)
  · intro addr hp
    exact h.bound addr (hmem _ rfl hp)
  · intro _ hno
    rw [htrace] at hno
    rcases hcnt with hc | hc
    · rw [hc]
      exact h.doneSeen hserver (fun hin => hno (List.mem_append_left _ hin))
    · exact absurd (List.mem_append_right _ hc) hno
  · rw [hurl, hsrv, htrace]
    refine ⟨fun hs => ?_, fun hs => ?_⟩
    · exact List.mem_append_left _ (h.serverTrace.1 hs)
    · exact ⟨List.mem_append_left _ (h.serverTrace.2 hs).1,
        List.mem_append_left _ (h.serverTrace.2 hs).2⟩

theorem Inv_deliverStep (env : Env) (a : Args) (r : Request) (s : Sys) (h : Inv env a s) :
    Inv env a (deliverStep env r s) := by
  rcases deliverStep_shape env r s with heq | ⟨hs, hmain, hsrv, hurl, ext, htrace, hext, hcnt⟩
  · rw [heq]; exact h
  · exact Inv_extend env a s _ ext h (by rw [hs]; simp) hmain hsrv hurl htrace hext hcnt

theorem Inv_serverStep (env : Env) (a : Args) (s : Sys) (h : Inv env a s) :
    Inv env a (serverStep env a s) := by
  unfold serverStep
  split
  · exact h
  · rename_i hs
    have hst := h.started (by rw [hs]; simp)
    split
    · rename_i hacc
      constructor
      · simp [World.emit, List.filter_append, Event.ofMain]
        exact h.mainTrace
      · exact h.facts
      · simp
      · intro _; exact hst
      · intro p hp
        simp [World.emit] at hp
        rcases hp with hp | hp
        · exact h.handled p hp
        · subst hp; exact ⟨rfl, hacc⟩
      · intro addr hp
        simp [World.emit] at hp
        exact h.bound addr hp
      · intro _ hno
        simp [World.emit] at hno
        exact h.doneSeen (by rw [hs]; simp) hno
      · simp [World.emit]
    · constructor
      · exact h.mainTrace
      · exact h.facts
      · intro hn; simp [hs] at hn
      · intro _; exact hst
      · exact h.handled
      · exact h.bound
      · exact h.doneSeen
      · exact h.serverTrace
  · rename_i hs
    have hst := h.started (by rw [hs]; simp)
    split
    · rename_i e he
      constructor
      · exact h.mainTrace
      · exact h.facts
      · intro hn; simp [hs] at hn
      · intro _; exact hst
      · exact h.handled
      · exact h.bound
      · exact h.doneSeen
      · exact h.serverTrace
    · rename_i u he
      constructor
      · simp [World.emit, List.filter_append, Event.ofMain]
        exact h.mainTrace
      · exact h.facts
      · simp
      · intro _; exact hst
      · intro p hp
        simp [World.emit] at hp
        exact h.handled p hp
      · intro addr hp
        simp [World.emit] at hp
        rcases hp with hp | hp
        · exact h.bound addr hp
        · subst hp; exact ⟨rfl, he⟩
      · intro _ hno
        simp [World.emit] at hno
        exact h.doneSeen (by rw [hs]; simp) hno
      · simp [World.emit]
        exact h.serverTrace.1 hs
  · exact h

theorem mainEvents_ofMain (env : Env) (a : Args) (pc : MainPC) :
    ∀ e ∈ mainEvents env a pc, e.ofMain = true := by
  cases pc with
  | returned r =>
    cases r with
    | none => simp [mainEvents, Event.ofMain]
    | some e =>
      simp only [mainEvents]
      split <;> simp [Event.ofMain]
  | _ => simp [mainEvents, Event.ofMain]

theorem Inv_of_early (env : Env) (a : Args) (t : Sys) (hsrv : t.server = .notStarted)
    (hcr : t.crashed = none) (htr : t.world.trace = mainEvents env a t.main)
    (hc : t.world.counter = earlyCounter t.main)
    (hrank : t.main.rank ≤ 3 ∨ 7 ≤ t.main.rank) (hfacts : pcFacts env a t) :
    Inv env a t := by
  have hno : ∀ e : Event, e.ofMain = false → e ∉ t.world.trace := by
    intro e he hmem
    rw [htr] at hmem
    rw [mainEvents_ofMain env a _ e hmem] at he
    cases he
  constructor
  · rw [← htr]
    apply List.filter_eq_self.mpr
    intro e he
    rw [htr] at he
    exact mainEvents_ofMain env a _ e he
  · exact hfacts
  · intro _; exact ⟨hcr, htr, hc, hrank⟩
  · intro hn; exact absurd hsrv hn
  · intro p hp; exact absurd hp (hno _ rfl)
  · intro addr hp; exact absurd hp (hno _ rfl)
  · intro hn; exact absurd hsrv hn
  · simp [hsrv]

theorem Inv_mainEmit (env : Env) (a : Args) (s t : Sys) (e : Event) (h : Inv env a s)
    (hcnt : Event.wgAdd (-1) ∉ s.world.trace → s.world.counter = 1)
    (hsame : t.world.counter = s.world.counter)
    (hsrv : t.server = s.server ∨ (t.server = .httpHandle ∧ s.server = .notStarted))
    (hurl : t.endpointUrl = s.endpointUrl) (htrace : t.world.trace = s.world.trace ++ [e])
    (he : e.ofMain = true) (hme : mainEvents env a t.main = mainEvents env a s.main ++ [e])
    (hfacts : pcFacts env a t)
    (hstarted : env.newSession a.region = .ok () ∧ env.urlParse a.endpoint = .ok t.endpointUrl ∧
      4 ≤ t.main.rank)
    (htsrv : t.server ≠ .notStarted) : Inv env a t := by
  have hmem : ∀ x : Event, x.ofMain = false → x ∈ t.world.trace → x ∈ s.world.trace := by
    intro x hx hin
    rw [htrace] at hin
    rcases List.mem_append.mp hin with h1 | h1
    · exact h1
    · simp at h1
      subst h1
      rw [he] at hx
      cases hx
  constructor
  · rw [htrace, List.filter_append, h.mainTrace, hme]
    simp [he]
  · exact hfacts
  · intro hn; exact absurd hn htsrv
  · intro _; exact hstarted
  · intro p hp
    rw [hurl]
    exact h.handled p (hmem _ rfl hp)
  · intro addr hp
    exact h.bound addr (hmem _ rfl hp)
  · intro _ hno
    rw [htrace] at hno
    rw [hsame]
    exact hcnt (fun hin => hno (List.mem_append_left _ hin))
  · rcases hsrv with hsame | ⟨hnew, _⟩
    · rw [hurl, hsame, htrace]
      refine ⟨fun hs => ?_, fun hs => ?_⟩
      · exact List.mem_append_left _ (h.serverTrace.1 hs)
      · exact ⟨List.mem_append_left _ (h.serverTrace.2 hs).1,
          List.mem_append_left _ (h.serverTrace.2 hs).2⟩
    · simp [hnew]

theorem subscribeInput_of_parse (env : Env) (a : Args) (u : String × String)
    (h : env.urlParse a.endpoint = .ok u) :
    subscribeInput env a = { Endpoint := a.endpoint, Protocol := u.1, TopicArn := a.topic } := by
  simp [subscribeInput, h]

theorem Inv_server_of_rank (env : Env) (a : Args) (s : Sys) (h : Inv env a s) :
    (s.main.rank ≤ 3 → s.server = .notStarted) ∧
    (4 ≤ s.main.rank → s.main.rank ≤ 6 → s.server ≠ .notStarted) := by
  constructor
  · intro hr
    by_contra hn
    have := (h.started hn).2.2
    omega
  · intro h4 h6 hn
    have := (h.early hn).2.2.2
    omega

theorem Inv_mainStep (env : Env) (a : Args) (s : Sys) (h : Inv env a s) :
    Inv env a (mainStep env a s) := by
  have hfacts := h.facts
  have hrk := Inv_server_of_rank env a s h
  unfold mainStep
  split
  · -- session.NewSession
    rename_i hm
    have hsrv := hrk.1 (by simp [hm, MainPC.rank])
    obtain ⟨hcr, htr, hc, _⟩ := h.early hsrv
    simp only [hm, mainEvents, earlyCounter] at htr hc
    split
    · rename_i e he
      apply Inv_of_early <;>
        simp [hsrv, hcr, htr, hc, World.emit, mainEvents, he, earlyCounter, MainPC.rank, pcFacts]
    · rename_i u he
      apply Inv_of_early <;>
        simp [hsrv, hcr, htr, hc, World.emit, mainEvents, he, earlyCounter, MainPC.rank, pcFacts]
  · -- url.Parse
    rename_i hm
    have hsrv := hrk.1 (by simp [hm, MainPC.rank])
    obtain ⟨hcr, htr, hc, _⟩ := h.early hsrv
    simp only [hm, mainEvents, earlyCounter] at htr hc
    simp only [pcFacts, hm] at hfacts
    split
    · rename_i e he
      apply Inv_of_early <;>
        simp [hsrv, hcr, htr, hc, mainEvents, he, hfacts, earlyCounter, MainPC.rank, pcFacts]
    · rename_i u he
      apply Inv_of_early <;>
        simp [hsrv, hcr, htr, hc, mainEvents, he, hfacts, earlyCounter, MainPC.rank, pcFacts]
  · -- wg.Add(1)
    rename_i hm
    have hsrv := hrk.1 (by simp [hm, MainPC.rank])
    obtain ⟨hcr, htr, hc, _⟩ := h.early hsrv
    simp only [hm, mainEvents, earlyCounter] at htr hc
    simp only [pcFacts, hm] at hfacts
    have hadd : wgAdd 1 s.world
        = (.returned, { counter := 1, trace := [.newSession a.region, .wgAdd 1] }) := by
      simp [wgAdd, hc, htr]
    rw [hadd]
    apply Inv_of_early <;>
      simp [hsrv, hcr, mainEvents, hfacts, earlyCounter, MainPC.rank, pcFacts]
  · -- go
    rename_i hm
    have hsrv := hrk.1 (by simp [hm, MainPC.rank])
    simp only [pcFacts, hm] at hfacts
    have hone : s.world.counter = 1 := by
      rw [(h.early hsrv).2.2.1, hm]
      rfl
    apply Inv_mainEmit env a s _ .goServe h (fun _ => hone) <;>
      simp [hsrv, hm, World.emit, mainEvents, hfacts, MainPC.rank, pcFacts, Event.ofMain]
  · -- svc.Subscribe
    rename_i hm
    have hsrv := hrk.2 (by simp [hm, MainPC.rank]) (by simp [hm, MainPC.rank])
    simp only [pcFacts, hm] at hfacts
    have hin := subscribeInput_of_parse env a s.endpointUrl hfacts.2
    rw [← hin]
    simp only []
    split
    · rename_i e he
      apply Inv_mainEmit env a s _ (.snsSubscribe (subscribeInput env a)) h (h.doneSeen hsrv) <;>
        simp [hsrv, hm, World.emit, mainEvents, hfacts, MainPC.rank, pcFacts, Event.ofMain, he]
    · rename_i u he
      apply Inv_mainEmit env a s _ (.snsSubscribe (subscribeInput env a)) h (h.doneSeen hsrv) <;>
        simp [hsrv, hm, World.emit, mainEvents, hfacts, MainPC.rank, pcFacts, Event.ofMain, he]
  · -- wg.Wait()
    rename_i hm
    have hsrv := hrk.2 (by simp [hm, MainPC.rank]) (by simp [hm, MainPC.rank])
    simp only [pcFacts, hm] at hfacts
    split
    · apply Inv_mainEmit env a s _ .wgWaitReturned h (h.doneSeen hsrv) <;>
        simp [hsrv, hm, World.emit, mainEvents, hfacts, MainPC.rank, pcFacts, Event.ofMain]
    · exact h
  · -- fmt.Println
    rename_i hm
    have hsrv := hrk.2 (by simp [hm, MainPC.rank]) (by simp [hm, MainPC.rank])
    simp only [pcFacts, hm] at hfacts
    apply Inv_mainEmit env a s _ (.println successMessage) h (h.doneSeen hsrv) <;>
      simp [hsrv, hm, World.emit, mainEvents, hfacts, MainPC.rank, pcFacts, Event.ofMain]
  · exact h

theorem Inv_step (env : Env) (a : Args) (act : Action) (s : Sys) (h : Inv env a s) :
    Inv env a (step env a act s) := by
  unfold step
  split
  · exact h
  · cases act with
    | main => exact Inv_mainStep env a s h
    | server => exact Inv_serverStep env a s h
    | deliver r => exact Inv_deliverStep env a r s h

theorem Inv_run (env : Env) (a : Args) (sched : List Action) :
    Inv env a (run env a sched Sys.init) :=
  run_invariant env a (Inv env a) (fun act s h => Inv_step env a act s h) sched Sys.init
    (Inv_init env a)

theorem serverStep_main (env : Env) (a : Args) (s : Sys) :
    (serverStep env a s).main = s.main := by
  unfold serverStep
  repeat' split
  all_goals rfl

theorem deliverStep_main (env : Env) (r : Request) (s : Sys) :
    (deliverStep env r s).main = s.main := by
  rcases deliverStep_shape env r s with h | h
  · rw [h]
  · exact h.2.1

theorem mainStep_rank (env : Env) (a : Args) (s : Sys) :
    (mainStep env a s).crashed ≠ none ∨
      (s.main.rank ≤ (mainStep env a s).main.rank ∧
        min (s.main.rank + 1) 5 ≤ (mainStep env a s).main.rank) ∨
      (mainStep env a s = s ∧ 5 ≤ s.main.rank) := by
  unfold mainStep
  split
  · split <;> simp_all [MainPC.rank]
  · split <;> simp_all [MainPC.rank]
  · split <;> simp_all [MainPC.rank]
  · simp_all [MainPC.rank]
  · simp only []
    split <;> simp_all [MainPC.rank]
  · split <;> simp_all [MainPC.rank]
  · simp_all [MainPC.rank]
  · simp_all [MainPC.rank]

theorem step_rank (env : Env) (a : Args) (act : Action) (s : Sys) :
    (step env a act s).crashed ≠ none ∨
      min (s.main.rank + (if act.isMain then 1 else 0)) 5 ≤ (step env a act s).main.rank := by
  unfold step
  split
  · rename_i p hp
    left; simp [hp]
  · cases act with
    | main =>
      rcases mainStep_rank env a s with h | h | h
      · exact Or.inl h
      · right; simpa [Action.isMain] using h.2
      · right
        simp only [Action.isMain, if_true, h.1]
        omega
    | server =>
      right
      simp only [serverStep_main, Action.isMain, Bool.false_eq_true, if_false]
      omega
    | deliver r =>
      right
      simp only [deliverStep_main, Action.isMain, Bool.false_eq_true, if_false]
      omega

theorem run_rank (env : Env) (a : Args) (sched : List Action) :
    ∀ s : Sys, (run env a sched s).crashed = none →
      min (s.main.rank + mainSteps sched) 5 ≤ (run env a sched s).main.rank := by
  induction sched with
  | nil =>
    intro s _
    simp only [run, mainSteps, List.filter_nil, List.length_nil]
    omega
  | cons act rest ih =>
    intro s hfin
    simp only [run] at hfin ⊢
    have hcount : mainSteps (act :: rest) = (if act.isMain then 1 else 0) + mainSteps rest := by
      unfold mainSteps
      cases hact : act.isMain <;> simp [List.filter_cons, hact]
      omega
    rcases step_rank env a act s with hcr | hr
    · exfalso
      cases hc : (step env a act s).crashed with
      | none => exact hcr hc
      | some p =>
        rw [run_of_crashed env a rest _ p hc] at hfin
        rw [hc] at hfin
        cases hfin
    · have := ih _ hfin
      rw [hcount]
      omega

theorem wgAdd_trace (delta : Int) (w : World) :
    (wgAdd delta w).2.trace = w.trace ++ [.wgAdd delta] := by
  unfold wgAdd
  simp only []
  split <;> rfl

theorem run_rank_init (env : Env) (a : Args) (sched : List Action)
    (h : (run env a sched Sys.init).crashed = none) :
    min (mainSteps sched) 5 ≤ (run env a sched Sys.init).main.rank := by
  have := run_rank env a sched Sys.init h
  have h0 : Sys.init.main.rank = 0 := rfl
  rw [h0, Nat.zero_add] at this
  exact this

theorem mainStep_gets (env : Env) (a : Args) (s : Sys) :
    gets (mainStep env a s).world.trace = gets s.world.trace := by
  unfold mainStep
  split
  · split <;> simp [World.emit, gets_append, gets]
  · split <;> simp
  · have htr := wgAdd_trace 1 s.world
    split <;> rename_i heq <;> rw [heq] at htr <;> simp at htr <;>
      simp [htr, gets_append, gets]
  · simp [World.emit, gets_append, gets]
  · simp only []
    split <;> simp [World.emit, gets_append, gets]
  · split <;> simp [World.emit, gets_append, gets]
  · simp [World.emit, gets_append, gets]
  · rfl

theorem step_enters_println (env : Env) (a : Args) (act : Action) (s : Sys)
    (h1 : s.main ≠ .println) (h2 : s.main ≠ .returned none)
    (h : (step env a act s).main = .println ∨ (step env a act s).main = .returned none) :
    s.main = .wgWait ∧ s.world.counter = 0 ∧ s.crashed = none := by
  unfold step at h
  split at h
  · rcases h with h | h
    · exact absurd h h1
    · exact absurd h h2
  · rename_i hcr
    cases act with
    | main =>
      simp only [] at h
      unfold mainStep at h
      split at h
      · split at h <;> simp at h
      · split at h <;> simp at h
      · split at h <;> simp_all
      · simp at h
      · simp only [] at h
        split at h <;> simp at h
      · rename_i hm
        split at h
        · rename_i hc
          exact ⟨hm, hc, hcr⟩
        · simp [hm] at h
      · rename_i hm
        exact absurd hm h1
      · rename_i r hm
        rw [hm] at h h2
        simp at h
        exact absurd (by rw [h]) h2
    | server =>
      simp only [serverStep_main] at h
      rcases h with h | h
      · exact absurd h h1
      · exact absurd h h2
    | deliver r =>
      simp only [deliverStep_main] at h
      rcases h with h | h
      · exact absurd h h1
      · exact absurd h h2

theorem run_returned_nil_split (env : Env) (a : Args) (sched : List Action) :
    ∀ s : Sys, s.main ≠ .println → s.main ≠ .returned none →
      (run env a sched s).main = .returned none →
      ∃ p q, sched = p ++ q ∧ (run env a p s).main = .wgWait ∧
        (run env a p s).world.counter = 0 ∧ (run env a p s).crashed = none := by
  induction sched with
  | nil =>
    intro s _ h2 h
    exact absurd h h2
  | cons act rest ih =>
    intro s h1 h2 h
    by_cases hnext : (step env a act s).main = .println ∨ (step env a act s).main = .returned none
    · exact ⟨[], act :: rest, rfl, step_enters_println env a act s h1 h2 hnext⟩
    · push_neg at hnext
      obtain ⟨p, q, hpq, hp⟩ := ih (step env a act s) hnext.1 hnext.2 h
      exact ⟨act :: p, q, by rw [hpq]; rfl, hp⟩

theorem println_not_before_wait (env : Env) (a : Args) (s : Sys) (h : Inv env a s)
    (hm : s.main = .wgWait) : Event.println successMessage ∉ s.world.trace := by
  intro hmem
  have hf : Event.println successMessage ∈ s.world.trace.filter Event.ofMain :=
    List.mem_filter.mpr ⟨hmem, rfl⟩
  rw [h.mainTrace, hm] at hf
  simp [mainEvents] at hf

theorem println_after_return (env : Env) (a : Args) (s : Sys) (h : Inv env a s)
    (hm : s.main = .returned none) : Event.println successMessage ∈ s.world.trace := by
  have hf : Event.println successMessage ∈ s.world.trace.filter Event.ofMain := by
    rw [h.mainTrace, hm]
    simp [mainEvents]
  exact (List.mem_filter.mp hf).1

theorem step_main_returned (env : Env) (a : Args) (act : Action) (s : Sys) (r : Option String)
    (h : s.main = .returned r) : (step env a act s).main = .returned r := by
  unfold step
  split
  · exact h
  · cases act with
    | main => simp [mainStep, h]
    | server => rw [serverStep_main]; exact h
    | deliver q => rw [deliverStep_main]; exact h

theorem run_main_returned (env : Env) (a : Args) (sched : List Action) :
    ∀ (s : Sys) (r : Option String), s.main = .returned r →
      (run env a sched s).main = .returned r := by
  induction sched with
  | nil => intro s r h; exact h
  | cons act rest ih => intro s r h; exact ih _ r (step_main_returned env a act s r h)

theorem step_from_early (env : Env) (a : Args) (act : Action) (s : Sys)
    (h : s.main.rank ≤ 2) :
    (step env a act s).main.rank ≤ 2 ∨ (step env a act s).main = .goServe ∨
      ∃ e, (step env a act s).main = .returned (some e) := by
  unfold step
  split
  · exact Or.inl h
  · cases act with
    | main =>
      simp only []
      unfold mainStep
      split
      · split <;> simp [MainPC.rank]
      · split <;> simp [MainPC.rank]
      · split
        · left; simp_all [MainPC.rank]
        · simp
      all_goals rename_i hm; simp [hm, MainPC.rank] at h
    | server => rw [serverStep_main]; exact Or.inl h
    | deliver q => rw [deliverStep_main]; exact Or.inl h

theorem run_passes_go (env : Env) (a : Args) (sched : List Action) :
    ∀ s : Sys, s.main.rank ≤ 2 → (run env a sched s).main = .returned none →
      ∃ p q, sched = p ++ q ∧ (run env a p s).main = .goServe := by
  induction sched with
  | nil =>
    intro s h hfin
    simp only [run] at hfin
    simp [hfin, MainPC.rank] at h
  | cons act rest ih =>
    intro s h hfin
    rcases step_from_early env a act s h with h1 | h1 | ⟨e, h1⟩
    · obtain ⟨p, q, hpq, hp⟩ := ih _ h1 hfin
      exact ⟨act :: p, q, by rw [hpq]; rfl, hp⟩
    · exact ⟨[act], rest, rfl, h1⟩
    · simp only [run] at hfin
      rw [run_main_returned env a rest _ _ h1] at hfin
      cases hfin

/-- C5: in every execution of `subscribe`: when the main thread stands at
the `go` statement the wait count is 1 and only the session call and
`wg.Add(1)` have happened; if the main thread has returned nil, it has
printed the success message and the execution passed, in this order, a point
at the `go` statement with the count at 1 and no `wg.Done()` yet, and a point
at `wg.Wait()` with the `Subscribe` request sent and answered without error,
a `wg.Done()` in the trace, the count at zero and the message not yet
printed.  At `wg.Wait()` with a count other than zero the main thread does
not move; with the count already zero, its next two statements pass the
wait, print the message and return nil. -/
theorem subscribe_returns_nil_only_after_wait (env : Env) (a : Args) :
    (∀ sched : List Action, (subscribe env a sched).main = .goServe →
      (subscribe env a sched).world.counter = 1 ∧
      (subscribe env a sched).world.trace = [.newSession a.region, .wgAdd 1]) ∧
    (∀ sched : List Action, (subscribe env a sched).main = .returned none →
      Event.println successMessage ∈ (subscribe env a sched).world.trace ∧
      ∃ p0 p1 q, sched = p0 ++ (p1 ++ q) ∧
        (subscribe env a p0).main = .goServe ∧
        (subscribe env a p0).world.counter = 1 ∧
        Event.wgAdd (-1) ∉ (subscribe env a p0).world.trace ∧
        (subscribe env a (p0 ++ p1)).main = .wgWait ∧
        (subscribe env a (p0 ++ p1)).world.counter = 0 ∧
        Event.wgAdd (-1) ∈ (subscribe env a (p0 ++ p1)).world.trace ∧
        (∃ input, Event.snsSubscribe input ∈ (subscribe env a (p0 ++ p1)).world.trace ∧
          env.snsSubscribe input = .ok ()) ∧
        Event.println successMessage ∉ (subscribe env a (p0 ++ p1)).world.trace) ∧
    (∀ s : Sys, s.main = .wgWait → s.world.counter ≠ 0 → step env a .main s = s) ∧
    (∀ s : Sys, s.crashed = none → s.main = .wgWait → s.world.counter = 0 →
      (run env a [.main, .main] s).main = .returned none ∧
      (run env a [.main, .main] s).world.trace
        = s.world.trace ++ [.wgWaitReturned, .println successMessage]) := by
  unfold subscribe
  have atGo : ∀ sched : List Action, (run env a sched Sys.init).main = .goServe →
      (run env a sched Sys.init).world.counter = 1 ∧
      (run env a sched Sys.init).world.trace = [.newSession a.region, .wgAdd 1] := by
    intro sched hm
    have h := Inv_run env a sched
    have hsrv := (Inv_server_of_rank env a _ h).1 (by simp [hm, MainPC.rank])
    obtain ⟨_, htr, hc, _⟩ := h.early hsrv
    rw [hc, htr, hm]
    exact ⟨rfl, rfl⟩
  refine ⟨atGo, ?_, ?_, ?_⟩
  · intro sched hm
    refine ⟨println_after_return env a _ (Inv_run env a sched) hm, ?_⟩
    obtain ⟨p0, rest, hsplit, hgo⟩ :=
      run_passes_go env a sched Sys.init (by simp [Sys.init, MainPC.rank]) hm
    rw [hsplit, run_append] at hm
    obtain ⟨p1, q, hrest, hw, hc, _⟩ :=
      run_returned_nil_split env a rest (run env a p0 Sys.init) (by simp [hgo]) (by simp [hgo]) hm
    rw [← run_append] at hw hc
    have hinv := Inv_run env a (p0 ++ p1)
    have hstarted : (run env a (p0 ++ p1) Sys.init).server ≠ .notStarted :=
      (Inv_server_of_rank env a _ hinv).2 (by simp [hw, MainPC.rank]) (by simp [hw, MainPC.rank])
    have hfacts := hinv.facts
    simp only [pcFacts, hw] at hfacts
    refine ⟨p0, p1, q, by rw [hsplit, hrest], hgo, (atGo p0 hgo).1, ?_, hw, hc, ?_, ?_,
      println_not_before_wait env a _ hinv hw⟩
    · rw [(atGo p0 hgo).2]
      simp
    · by_contra hno
      have := hinv.doneSeen hstarted hno
      rw [hc] at this
      cases this
    · refine ⟨subscribeInput env a, ?_, hfacts.2.2⟩
      have hf : Event.snsSubscribe (subscribeInput env a)
          ∈ (run env a (p0 ++ p1) Sys.init).world.trace.filter Event.ofMain := by
        rw [hinv.mainTrace, hw]
        simp [mainEvents]
      exact (List.mem_filter.mp hf).1
  · intro s hm hc
    unfold step
    split
    · rfl
    · simp [mainStep, hm, hc]
  · intro s hcr hm hc
    simp [run, step, mainStep, hcr, hm, hc, World.emit]

/-- C5, witness: a confirmation is delivered and acknowledged before the main
thread reaches `wg.Wait()`; `subscribe` returns nil. -/
theorem subscribe_returns_nil_only_after_wait_witness :
    (subscribe sampleEnv sampleArgs confirmedEarlySchedule).main = .returned none ∧
    (Event.println successMessage
        ∈ (subscribe sampleEnv sampleArgs confirmedEarlySchedule).world.trace ∧
      ∃ p0 p1 q, confirmedEarlySchedule = p0 ++ (p1 ++ q) ∧
        (subscribe sampleEnv sampleArgs p0).main = .goServe ∧
        (subscribe sampleEnv sampleArgs p0).world.counter = 1 ∧
        Event.wgAdd (-1) ∉ (subscribe sampleEnv sampleArgs p0).world.trace ∧
        (subscribe sampleEnv sampleArgs (p0 ++ p1)).main = .wgWait ∧
        (subscribe sampleEnv sampleArgs (p0 ++ p1)).world.counter = 0 ∧
        Event.wgAdd (-1) ∈ (subscribe sampleEnv sampleArgs (p0 ++ p1)).world.trace ∧
        (∃ input, Event.snsSubscribe input
            ∈ (subscribe sampleEnv sampleArgs (p0 ++ p1)).world.trace ∧
          sampleEnv.snsSubscribe input = .ok ()) ∧
        Event.println successMessage
          ∉ (subscribe sampleEnv sampleArgs (p0 ++ p1)).world.trace) :=
  ⟨by decide,
   (subscribe_returns_nil_only_after_wait sampleEnv sampleArgs).2.1 confirmedEarlySchedule
    (by decide)⟩

theorem Inv_session_error (env : Env) (a : Args) (s : Sys) (e : String) (h : Inv env a s)
    (herr : env.newSession a.region = .error e) :
    (s.main = .newSession ∨ s.main = .returned (some e)) ∧ s.server = .notStarted ∧
      s.crashed = none ∧ s.world.counter = 0 ∧
      (s.world.trace = [] ∨ s.world.trace = [.newSession a.region]) := by
  have hsrv : s.server = .notStarted := by
    by_contra hn
    have := (h.started hn).1
    rw [herr] at this
    cases this
  obtain ⟨hcr, htr, hc, _⟩ := h.early hsrv
  have hfacts := h.facts
  unfold pcFacts at hfacts
  cases hm : s.main with
  | returned r =>
    cases r with
    | none => simp [hm, herr] at hfacts
    | some e2 =>
      simp only [hm, herr] at hfacts
      have he : e2 = e := by
        rcases hfacts with h1 | h1 | h1
        · injection h1 with h1; exact h1.symm
        · cases h1.1
        · cases h1.1
      subst he
      refine ⟨Or.inr rfl, hsrv, hcr, ?_, Or.inr ?_⟩
      · rw [hc, hm]; rfl
      · rw [htr, hm]; simp [mainEvents, herr]
  | newSession =>
    refine ⟨Or.inl rfl, hsrv, hcr, ?_, Or.inl ?_⟩
    · rw [hc, hm]; rfl
    · rw [htr, hm]; rfl
  | _ => simp [hm, herr] at hfacts

theorem Inv_parse_error (env : Env) (a : Args) (s : Sys) (e : String) (h : Inv env a s)
    (hsess : env.newSession a.region = .ok ()) (herr : env.urlParse a.endpoint = .error e) :
    (s.main = .newSession ∨ s.main = .urlParse ∨ s.main = .returned (some e)) ∧
      s.server = .notStarted ∧ s.crashed = none ∧ s.world.counter = 0 ∧
      (s.world.trace = [] ∨ s.world.trace = [.newSession a.region]) := by
  have hsrv : s.server = .notStarted := by
    by_contra hn
    have := (h.started hn).2.1
    rw [herr] at this
    cases this
  obtain ⟨hcr, htr, hc, _⟩ := h.early hsrv
  have hfacts := h.facts
  unfold pcFacts at hfacts
  cases hm : s.main with
  | returned r =>
    cases r with
    | none => simp [hm, herr] at hfacts
    | some e2 =>
      simp only [hm, herr, hsess] at hfacts
      have he : e2 = e := by
        rcases hfacts with h1 | h1 | h1
        · cases h1
        · injection h1.2 with h1; exact h1.symm
        · cases h1.2.1
      subst he
      refine ⟨Or.inr (Or.inr rfl), hsrv, hcr, ?_, Or.inr ?_⟩
      · rw [hc, hm]; rfl
      · rw [htr, hm]; simp [mainEvents, herr]
  | newSession =>
    refine ⟨Or.inl rfl, hsrv, hcr, ?_, Or.inl ?_⟩
    · rw [hc, hm]; rfl
    · rw [htr, hm]; rfl
  | urlParse =>
    refine ⟨Or.inr (Or.inl rfl), hsrv, hcr, ?_, Or.inr ?_⟩
    · rw [hc, hm]; rfl
    · rw [htr, hm]; rfl
  | _ => simp [hm, herr] at hfacts

theorem Inv_subscribe_error (env : Env) (a : Args) (s : Sys) (e scheme path : String)
    (h : Inv env a s) (hsess : env.newSession a.region = .ok ())
    (hparse : env.urlParse a.endpoint = .ok (scheme, path))
    (herr : env.snsSubscribe { Endpoint := a.endpoint, Protocol := scheme, TopicArn := a.topic }
      = .error e) :
    (∀ r, s.main = .returned r → r = some e) ∧ s.main ≠ .wgWait ∧ s.main ≠ .println ∧
      Event.wgWaitReturned ∉ s.world.trace ∧ Event.println successMessage ∉ s.world.trace := by
  have hin := subscribeInput_of_parse env a _ hparse
  simp only [] at hin
  have hfacts := h.facts
  unfold pcFacts at hfacts
  have hmem : ∀ x : Event, x.ofMain = true → x ∈ s.world.trace →
      x ∈ mainEvents env a s.main := by
    intro x hx hin
    rw [← h.mainTrace]
    exact List.mem_filter.mpr ⟨hin, hx⟩
  have hpc : (∀ r, s.main = .returned r → r = some e) ∧ s.main ≠ .wgWait ∧
      s.main ≠ .println := by
    refine ⟨?_, ?_, ?_⟩
    · intro r hm
      cases r with
      | none => simp [hm, hin, herr] at hfacts
      | some e2 =>
        simp only [hm, hsess, hparse, hin, herr] at hfacts
        rcases hfacts with h1 | h1 | h1
        · cases h1
        · cases h1.2
        · injection h1.2.2 with h1; rw [h1]
    · intro hm
      simp [hm, hin, herr] at hfacts
    · intro hm
      simp [hm, hin, herr] at hfacts
  refine ⟨hpc.1, hpc.2.1, hpc.2.2, ?_, ?_⟩
  · intro hx
    have := hmem Event.wgWaitReturned rfl hx
    cases hm : s.main with
    | returned r =>
      have hr := hpc.1 r hm
      subst hr
      simp [hm, mainEvents, hsess, hparse] at this
    | wgWait => exact hpc.2.1 hm
    | println => exact hpc.2.2 hm
    | _ => simp [hm, mainEvents] at this
  · intro hx
    have := hmem (Event.println successMessage) rfl hx
    cases hm : s.main with
    | returned r =>
      have hr := hpc.1 r hm
      subst hr
      simp [hm, mainEvents, hsess, hparse] at this
    | wgWait => exact hpc.2.1 hm
    | println => exact hpc.2.2 hm
    | _ => simp [hm, mainEvents] at this

theorem rank_of_snsSubscribe (env : Env) (a : Args) (s : Sys) (h : Inv env a s)
    (input : SubscribeInput) (hmem : Event.snsSubscribe input ∈ s.world.trace) :
    5 ≤ s.main.rank := by
  have hf : Event.snsSubscribe input ∈ s.world.trace.filter Event.ofMain :=
    List.mem_filter.mpr ⟨hmem, rfl⟩
  rw [h.mainTrace] at hf
  cases hm : s.main <;> simp [hm, mainEvents, MainPC.rank] at hf ⊢

theorem rank_ge_five (pc : MainPC) (h : 5 ≤ pc.rank) :
    pc = .wgWait ∨ pc = .println ∨ ∃ r, pc = .returned r := by
  cases pc <;> simp [MainPC.rank] at h ⊢

/-- C6: in every execution of `subscribe`: if session construction fails
with e, or the endpoint does not parse with error e, the main thread can only
be before the failing call or returned with exactly e, it has returned e once
it has run one (two) statements, the goroutine is never started and nothing
but the session call is in the trace (no wait, no message, no GET); if the
`Subscribe` call fails with e, the main thread never reaches `wg.Wait()` or
the print, any return is with exactly e, the trace has no return of
`wg.Wait()` and no success message, and the main thread has returned e as
soon as the request has been sent, which is once it has run five statements
unless the goroutine crashed the process first.
No statement of the main thread issues a GET: `subscribe` does not invoke
`confirmSubscription` on its own path. -/
theorem subscribe_returns_error (env : Env) (a : Args) (sched : List Action) (e : String) :
    (env.newSession a.region = .error e →
      (1 ≤ mainSteps sched → (subscribe env a sched).main = .returned (some e)) ∧
      ((subscribe env a sched).main = .newSession ∨
        (subscribe env a sched).main = .returned (some e)) ∧
      (subscribe env a sched).server = .notStarted ∧
      (subscribe env a sched).crashed = none ∧
      (subscribe env a sched).world.counter = 0 ∧
      ((subscribe env a sched).world.trace = [] ∨
        (subscribe env a sched).world.trace = [.newSession a.region])) ∧
    (env.newSession a.region = .ok () → env.urlParse a.endpoint = .error e →
      (2 ≤ mainSteps sched → (subscribe env a sched).main = .returned (some e)) ∧
      ((subscribe env a sched).main = .newSession ∨
        (subscribe env a sched).main = .urlParse ∨
        (subscribe env a sched).main = .returned (some e)) ∧
      (subscribe env a sched).server = .notStarted ∧
      (subscribe env a sched).crashed = none ∧
      (subscribe env a sched).world.counter = 0 ∧
      ((subscribe env a sched).world.trace = [] ∨
        (subscribe env a sched).world.trace = [.newSession a.region])) ∧
    (∀ scheme path : String, env.newSession a.region = .ok () →
      env.urlParse a.endpoint = .ok (scheme, path) →
      env.snsSubscribe { Endpoint := a.endpoint, Protocol := scheme, TopicArn := a.topic }
        = .error e →
      (∀ input, Event.snsSubscribe input ∈ (subscribe env a sched).world.trace →
        (subscribe env a sched).main = .returned (some e)) ∧
      (5 ≤ mainSteps sched → (subscribe env a sched).crashed = none →
        (subscribe env a sched).main = .returned (some e)) ∧
      (∀ r, (subscribe env a sched).main = .returned r → r = some e) ∧
      (subscribe env a sched).main ≠ .wgWait ∧
      (subscribe env a sched).main ≠ .println ∧
      Event.wgWaitReturned ∉ (subscribe env a sched).world.trace ∧
      Event.println successMessage ∉ (subscribe env a sched).world.trace) ∧
    (∀ s : Sys, gets (mainStep env a s).world.trace = gets s.world.trace) := by
  unfold subscribe
  have h := Inv_run env a sched
  have hrank := run_rank_init env a sched
  refine ⟨?_, ?_, ?_, mainStep_gets env a⟩
  · intro herr
    have hs := Inv_session_error env a _ e h herr
    refine ⟨?_, hs⟩
    intro hsteps
    have hr := hrank hs.2.2.1
    rcases hs.1 with hm | hm
    · rw [hm] at hr
      simp only [MainPC.rank] at hr
      omega
    · exact hm
  · intro hsess herr
    have hs := Inv_parse_error env a _ e h hsess herr
    refine ⟨?_, hs⟩
    intro hsteps
    have hr := hrank hs.2.2.1
    rcases hs.1 with hm | hm | hm
    · rw [hm] at hr
      simp only [MainPC.rank] at hr
      omega
    · rw [hm] at hr
      simp only [MainPC.rank] at hr
      omega
    · exact hm
  · intro scheme path hsess hparse herr
    have hs := Inv_subscribe_error env a _ e scheme path h hsess hparse herr
    have hret : 5 ≤ (run env a sched Sys.init).main.rank →
        (run env a sched Sys.init).main = .returned (some e) := by
      intro hr
      rcases rank_ge_five (run env a sched Sys.init).main hr with hm | hm | ⟨r, hm⟩
      · exact absurd hm hs.2.1
      · exact absurd hm hs.2.2.1
      · rw [hm, hs.1 r hm]
    refine ⟨?_, ?_, hs⟩
    · intro input hmem
      exact hret (rank_of_snsSubscribe env a _ h input hmem)
    · intro hsteps hcr
      have hr := hrank hcr
      exact hret (by omega)

/-- C6, witness: a failing session, an endpoint that does not parse and a
failing `Subscribe` call each make `subscribe` return exactly that error. -/
theorem subscribe_returns_error_witness :
    (subscribe sessionFailsEnv sampleArgs [.main]).main
      = .returned (some "no credentials") ∧
    (subscribe sampleEnv badEndpointArgs [.main, .main]).main
      = .returned (some "missing protocol scheme") ∧
    (subscribe subscribeFailsEnv sampleArgs mainFirstSchedule).main
      = .returned (some "InvalidParameter") :=
  ⟨((subscribe_returns_error sessionFailsEnv sampleArgs [.main] "no credentials").1 rfl).1
      (by decide),
   ((subscribe_returns_error sampleEnv badEndpointArgs [.main, .main]
      "missing protocol scheme").2.1 rfl rfl).1 (by decide),
   ((subscribe_returns_error subscribeFailsEnv sampleArgs mainFirstSchedule
      "InvalidParameter").2.2.1 "http" "/cb" rfl rfl rfl).2.1 (by decide) (by decide)⟩

theorem mainEvents_snsSubscribe (env : Env) (a : Args) (pc : MainPC) (input : SubscribeInput)
    (h : Event.snsSubscribe input ∈ mainEvents env a pc) : input = subscribeInput env a := by
  cases pc with
  | returned r =>
    cases r with
    | none =>
      simp [mainEvents] at h
      exact h
    | some e =>
      simp only [mainEvents] at h
      split at h <;> simp at h
      exact h
  | wgWait =>
    simp [mainEvents] at h
    exact h
  | println =>
    simp [mainEvents] at h
    exact h
  | _ => simp [mainEvents] at h

theorem mainEvents_goServe_first (env : Env) (a : Args) (pc : MainPC) (input : SubscribeInput)
    (l1 l2 : List Event) (h : l1 ++ Event.snsSubscribe input :: l2 = mainEvents env a pc) :
    Event.goServe ∈ l1 := by
  have key : ∀ tail : List Event,
      l1 ++ Event.snsSubscribe input :: l2
        = .newSession a.region :: .wgAdd 1 :: .goServe :: tail → Event.goServe ∈ l1 := by
    intro tail ht
    rcases l1 with _ | ⟨y1, _ | ⟨y2, _ | ⟨y3, l⟩⟩⟩ <;> simp at ht ⊢
    exact Or.inr (Or.inr (Or.inl ht.2.2.1.symm))
  have short : ∀ l : List Event, (∀ i, Event.snsSubscribe i ∉ l) →
      l1 ++ Event.snsSubscribe input :: l2 = l → Event.goServe ∈ l1 := by
    intro l hl ht
    exact absurd (by rw [← ht]; simp) (hl input)
  cases pc with
  | returned r =>
    cases r with
    | none => exact key _ h
    | some e =>
      simp only [mainEvents] at h
      split at h
      · exact key _ h
      · exact short _ (by simp) h
  | wgWait => exact key _ h
  | println => exact key _ h
  | _ => exact short _ (by simp [mainEvents]) h

theorem snsSubscribe_of_rank (env : Env) (a : Args) (s : Sys) (h : Inv env a s)
    (hsess : env.newSession a.region = .ok ()) (u : String × String)
    (hparse : env.urlParse a.endpoint = .ok u) (hr : 5 ≤ s.main.rank) :
    Event.snsSubscribe (subscribeInput env a) ∈ s.world.trace := by
  have hf : Event.snsSubscribe (subscribeInput env a) ∈ s.world.trace.filter Event.ofMain := by
    rw [h.mainTrace]
    rcases rank_ge_five _ hr with hm | hm | ⟨r, hm⟩
    · simp [hm, mainEvents]
    · simp [hm, mainEvents]
    · cases r <;> simp [hm, mainEvents, hsess, hparse]
  exact (List.mem_filter.mp hf).1

theorem mainStep_good (env : Env) (a : Args) (s : Sys) (u : String × String)
    (h : Inv env a s) (hsess : env.newSession a.region = .ok ())
    (hparse : env.urlParse a.endpoint = .ok u) (hcr : s.crashed = none) :
    (mainStep env a s).crashed = none ∧
    (mainStep env a s).server.rank = s.server.rank ∧
    (s.main.rank ≤ 3 → (mainStep env a s).main.rank = s.main.rank + 1) ∧
    (4 ≤ s.main.rank → 4 ≤ (mainStep env a s).main.rank ∧
      (mainStep env a s).server = s.server) ∧
    (4 ≤ (mainStep env a s).main.rank → s.main.rank ≤ 3 →
      (mainStep env a s).server ≠ .notStarted) := by
  have hrk := Inv_server_of_rank env a s h
  unfold mainStep
  split
  · rename_i hm
    simp [hm, hsess, hcr, MainPC.rank]
  · rename_i hm
    simp [hm, hparse, hcr, MainPC.rank]
  · rename_i hm
    have hsrv := hrk.1 (by simp [hm, MainPC.rank])
    have hc := (h.early hsrv).2.2.1
    simp only [hm, earlyCounter] at hc
    have hadd : wgAdd 1 s.world
        = (.returned, { counter := 1, trace := s.world.trace ++ [.wgAdd 1] }) := by
      simp [wgAdd, hc]
    rw [hadd]
    simp [hm, hcr, MainPC.rank]
  · rename_i hm
    have hsrv := hrk.1 (by simp [hm, MainPC.rank])
    simp [hm, hcr, hsrv, MainPC.rank, ServerPC.rank]
  · rename_i hm
    simp only []
    split <;> simp [hm, hcr, MainPC.rank]
  · rename_i hm
    split <;> simp [hm, hcr, MainPC.rank]
  · rename_i hm
    simp [hm, hcr, MainPC.rank]
  · rename_i r hm
    simp [hcr, hm, MainPC.rank]

theorem serverStep_good (env : Env) (a : Args) (s : Sys) (scheme path : String)
    (h : Inv env a s) (hparse : env.urlParse a.endpoint = .ok (scheme, path))
    (hacc : env.handleAccepts path = true) (hlisten : env.listen (listenAddr a.port) = .ok ())
    (hcr : s.crashed = none) :
    (serverStep env a s).crashed = none ∧
    (s.server = .notStarted → serverStep env a s = s) ∧
    (s.server ≠ .notStarted → (serverStep env a s).server ≠ .notStarted ∧
      min (s.server.rank + 1) 2 ≤ (serverStep env a s).server.rank) := by
  unfold serverStep
  split
  · rename_i hs
    simp [hcr, hs]
  · rename_i hs
    have hurl := (h.started (by rw [hs]; simp)).2.1
    rw [hparse] at hurl
    injection hurl with hurl
    simp [← hurl, hacc, hcr, hs, ServerPC.rank]
  · rename_i hs
    simp [hlisten, hcr, hs, ServerPC.rank]
  · rename_i hs
    simp [hcr, hs, ServerPC.rank]

theorem deliverStep_server (env : Env) (r : Request) (s : Sys) :
    (deliverStep env r s).server = s.server ∧
    ((deliverStep env r s).crashed = s.crashed ∨ s.server = .serving) := by
  unfold deliverStep
  split
  · rename_i hs
    split
    · exact ⟨rfl, Or.inl rfl⟩
    · split
      · exact ⟨rfl, Or.inl rfl⟩
      · exact ⟨rfl, Or.inr hs⟩
  · exact ⟨rfl, Or.inl rfl⟩

theorem server_progress (env : Env) (a : Args) (scheme path : String)
    (hsess : env.newSession a.region = .ok ())
    (hparse : env.urlParse a.endpoint = .ok (scheme, path))
    (hacc : env.handleAccepts path = true)
    (hlisten : env.listen (listenAddr a.port) = .ok ()) (sched : List Action) :
    ∀ s : Sys, Inv env a s → (s.crashed = none ∨ s.server = .serving) →
      (4 ≤ s.main.rank → s.server ≠ .notStarted) →
      min (s.server.rank + serverStepsAfter (4 - s.main.rank) sched) 2
        ≤ (run env a sched s).server.rank := by
  induction sched with
  | nil =>
    intro s _ _ _
    simp only [run, serverStepsAfter]
    omega
  | cons act rest ih =>
    intro s h hgood hstarted
    cases hcr : s.crashed with
    | some p =>
      rw [run_of_crashed env a _ s p hcr]
      rcases hgood with hg | hg
      · rw [hcr] at hg; cases hg
      · simp [hg, ServerPC.rank]
    | none =>
      have hstep : step env a act s = match act with
          | .main => mainStep env a s
          | .server => serverStep env a s
          | .deliver r => deliverStep env r s := by
        simp [step, hcr]
      have hinv := Inv_step env a act s h
      simp only [run]
      cases act with
      | main =>
        simp only [] at hstep
        obtain ⟨g1, g2, g3, g4, g5⟩ := mainStep_good env a s _ h hsess hparse hcr
        rw [hstep] at hinv ⊢
        have hih := ih (mainStep env a s) hinv (Or.inl g1) (by
          intro h4
          by_cases hle : s.main.rank ≤ 3
          · exact g5 h4 hle
          · rw [(g4 (by omega)).2]
            exact hstarted (by omega))
        have hk : 4 - (mainStep env a s).main.rank = 4 - s.main.rank - 1 := by
          by_cases hle : s.main.rank ≤ 3
          · rw [g3 hle]; omega
          · have := (g4 (by omega)).1
            omega
        rw [hk, g2] at hih
        simpa [serverStepsAfter] using hih
      | server =>
        simp only [] at hstep
        obtain ⟨g1, g2, g3⟩ := serverStep_good env a s scheme path h hparse hacc hlisten hcr
        rw [hstep] at hinv ⊢
        by_cases hns : s.server = .notStarted
        · have hrank : s.main.rank ≤ 3 := by
            by_contra hgt
            exact hstarted (by omega) hns
          rw [g2 hns]
          have hih := ih s h hgood hstarted
          have hk : ¬ (4 - s.main.rank = 0) := by omega
          simpa [serverStepsAfter, hk] using hih
        · have hrank : 4 ≤ s.main.rank := (h.started hns).2.2
          have hmain : (serverStep env a s).main = s.main := serverStep_main env a s
          have hih := ih (serverStep env a s) hinv (Or.inl g1) (fun _ => (g3 hns).1)
          rw [hmain] at hih
          have hk : 4 - s.main.rank = 0 := by omega
          have hadv := (g3 hns).2
          simp only [serverStepsAfter, hk, if_true] at hih ⊢
          omega
      | deliver r =>
        simp only [] at hstep
        rw [hstep] at hinv ⊢
        have hmain : (deliverStep env r s).main = s.main := deliverStep_main env r s
        obtain ⟨hsrv, hcrash⟩ := deliverStep_server env r s
        have hih := ih (deliverStep env r s) hinv (by
          rcases hcrash with hc | hc
          · left; rw [hc]; exact hcr
          · right; rw [hsrv]; exact hc) (by
          rw [hmain, hsrv]
          exact hstarted)
        rw [hmain, hsrv] at hih
        simpa [serverStepsAfter] using hih

/-- C7, counterexample: the endpoint `http://localhost:9001` parses with
scheme `http` and the empty path; `http.Handle` refuses the empty pattern, so
the goroutine panics: no handler is registered and no listener is bound,
whether the goroutine runs before the `Subscribe` request or after it. -/
theorem subscribe_empty_path_crashes :
    sampleEnv.urlParse noPathArgs.endpoint = .ok ("http", "") ∧
    sampleEnv.handleAccepts "" = false ∧
    (subscribe sampleEnv noPathArgs serverFirstSchedule).crashed = some .invalidPattern ∧
    (subscribe sampleEnv noPathArgs serverFirstSchedule).world.trace
      = [.newSession "us-east-1", .wgAdd 1, .goServe] ∧
    (subscribe sampleEnv noPathArgs serverLastSchedule).crashed = some .invalidPattern ∧
    (subscribe sampleEnv noPathArgs serverLastSchedule).world.trace
      = [.newSession "us-east-1", .wgAdd 1, .goServe,
          .snsSubscribe
            { Endpoint := "http://localhost:9001", Protocol := "http",
              TopicArn := "arn:aws:sns:us-east-1:1:t" }] := by
  refine ⟨rfl, rfl, ?_, ?_, ?_, ?_⟩ <;> decide

/-- C7, amended: for an endpoint that parses with scheme s and path p, in
every execution of `subscribe` every `Subscribe` request sent has `Endpoint`
the unmodified endpoint string, `Protocol` s and `TopicArn` the topic
argument, every registration is of route p (a pattern `http.Handle`
accepts), every bound listener is on the given port, and a serving listener
has the handler registered on p and is bound on that port.  When session
construction succeeds, the request has been sent once the main thread has
run five statements (unless the process has crashed), and, when moreover
`http.Handle` accepts p and the port can be bound, the handler is registered
on p and the listener is bound on the port once the goroutine has run two
statements after the `go` statement, the fourth of the main thread; such is
the execution in which the goroutine runs first. -/
theorem subscribe_request_and_route (env : Env) (a : Args) (scheme path : String)
    (hparse : env.urlParse a.endpoint = .ok (scheme, path)) :
    (∀ sched : List Action,
      (∀ input, Event.snsSubscribe input ∈ (subscribe env a sched).world.trace →
        input = { Endpoint := a.endpoint, Protocol := scheme, TopicArn := a.topic }) ∧
      (∀ p, Event.httpHandle p ∈ (subscribe env a sched).world.trace →
        p = path ∧ env.handleAccepts p = true) ∧
      (∀ addr, Event.listenBound addr ∈ (subscribe env a sched).world.trace →
        addr = listenAddr a.port) ∧
      ((subscribe env a sched).server = .serving →
        Event.httpHandle path ∈ (subscribe env a sched).world.trace ∧
        Event.listenBound (listenAddr a.port) ∈ (subscribe env a sched).world.trace) ∧
      (env.newSession a.region = .ok () → 5 ≤ mainSteps sched →
        (subscribe env a sched).crashed = none →
        Event.snsSubscribe { Endpoint := a.endpoint, Protocol := scheme, TopicArn := a.topic }
          ∈ (subscribe env a sched).world.trace) ∧
      (env.newSession a.region = .ok () → env.handleAccepts path = true →
        env.listen (listenAddr a.port) = .ok () → 2 ≤ serverStepsAfter 4 sched →
        (subscribe env a sched).server = .serving)) ∧
    (env.newSession a.region = .ok () → env.handleAccepts path = true →
      env.listen (listenAddr a.port) = .ok () →
      (subscribe env a [.main, .main, .main, .main, .server, .server, .main]).world.trace
        = [.newSession a.region, .wgAdd 1, .goServe, .httpHandle path,
            .listenBound (listenAddr a.port),
            .snsSubscribe { Endpoint := a.endpoint, Protocol := scheme, TopicArn := a.topic }] ∧
      (subscribe env a [.main, .main, .main, .main, .server, .server, .main]).server
        = .serving) := by
  unfold subscribe
  have hin := subscribeInput_of_parse env a _ hparse
  simp only [] at hin
  constructor
  · intro sched
    have h := Inv_run env a sched
    have hrank := run_rank_init env a sched
    have hprog : env.newSession a.region = .ok () → env.handleAccepts path = true →
        env.listen (listenAddr a.port) = .ok () → 2 ≤ serverStepsAfter 4 sched →
        (run env a sched Sys.init).server = .serving := by
      intro hsess hacc hlisten hsteps
      have := server_progress env a scheme path hsess hparse hacc hlisten sched Sys.init
        (Inv_init env a) (Or.inl rfl) (by simp [Sys.init, MainPC.rank])
      have h0 : Sys.init.server.rank = 0 := rfl
      have h1 : 4 - Sys.init.main.rank = 4 := rfl
      rw [h0, h1] at this
      have hge : 2 ≤ (run env a sched Sys.init).server.rank := by omega
      cases hs : (run env a sched Sys.init).server <;>
        first
        | rfl
        | simp [hs, ServerPC.rank] at hge
    generalize run env a sched Sys.init = s at h hrank hprog
    have hurl : s.server ≠ .notStarted → s.endpointUrl = (scheme, path) := by
      intro hn
      have := (h.started hn).2.1
      rw [hparse] at this
      injection this with this
      exact this.symm
    have hstarted : ∀ x : Event, x.ofMain = false → x ∈ s.world.trace →
        s.server ≠ .notStarted := by
      intro x hx hmem hn
      have htr := (h.early hn).2.1
      rw [htr] at hmem
      rw [mainEvents_ofMain env a _ x hmem] at hx
      cases hx
    refine ⟨?_, ?_, ?_, ?_, ?_, hprog⟩
    · intro input hmem
      have hf : Event.snsSubscribe input ∈ s.world.trace.filter Event.ofMain :=
        List.mem_filter.mpr ⟨hmem, rfl⟩
      rw [h.mainTrace] at hf
      rw [mainEvents_snsSubscribe env a _ input hf, hin]
    · intro p hmem
      have hp := h.handled p hmem
      rw [hurl (hstarted (Event.httpHandle p) rfl hmem)] at hp
      exact hp
    · intro addr hmem
      exact (h.bound addr hmem).1
    · intro hs
      have := h.serverTrace.2 hs
      rw [hurl (by rw [hs]; simp)] at this
      exact this
    · intro hsess hsteps hcr
      have hr := hrank hcr
      rw [← hin]
      exact snsSubscribe_of_rank env a s h hsess _ hparse (by omega)
  · intro hsess hacc hlisten
    cases hsub : env.snsSubscribe
        { Endpoint := a.endpoint, Protocol := scheme, TopicArn := a.topic } <;>
      simp [run, step, mainStep, serverStep, Sys.init, hsess, hparse, hacc, hlisten, wgAdd,
        World.emit, hsub]

/-- C7, witness: scenario 1, the goroutine running before the request. -/
theorem subscribe_request_and_route_witness :
    ((subscribe sampleEnv sampleArgs serverFirstSchedule).world.trace
      = [.newSession sampleArgs.region, .wgAdd 1, .goServe, .httpHandle "/cb",
          .listenBound (listenAddr sampleArgs.port),
          .snsSubscribe
            { Endpoint := sampleArgs.endpoint, Protocol := "http",
              TopicArn := sampleArgs.topic }] ∧
      (subscribe sampleEnv sampleArgs serverFirstSchedule).server = .serving) ∧
    2 ≤ serverStepsAfter 4 serverLastSchedule ∧
    (subscribe sampleEnv sampleArgs serverLastSchedule).server = .serving :=
  ⟨(subscribe_request_and_route sampleEnv sampleArgs "http" "/cb" rfl).2 rfl rfl rfl,
   by decide,
   ((subscribe_request_and_route sampleEnv sampleArgs "http" "/cb" rfl).1
      serverLastSchedule).2.2.2.2.2 rfl rfl rfl (by decide)⟩

/-- C10, counterexample: with every call succeeding, the main thread can run
its first five statements before the goroutine runs any: the `Subscribe`
request is sent while the goroutine still stands at `http.Handle`, with no
handler registered and no listener bound. -/
theorem subscribe_request_before_listener :
    (subscribe sampleEnv sampleArgs mainFirstSchedule).world.trace
      = [.newSession "us-east-1", .wgAdd 1, .goServe,
          .snsSubscribe
            { Endpoint := "http://localhost:9001/cb", Protocol := "http",
              TopicArn := "arn:aws:sns:us-east-1:1:t" }] ∧
    (subscribe sampleEnv sampleArgs mainFirstSchedule).server
      = .httpHandle ∧
    (subscribe sampleEnv sampleArgs mainFirstSchedule).crashed = none := by
  refine ⟨?_, ?_, ?_⟩ <;> decide

/-- C10, amended: in every execution of `subscribe`, the `go` statement that
starts the goroutine (which registers the handler and binds the listener)
precedes every `Subscribe` request; the registration and the binding
themselves are not ordered before the request: whenever the session is
constructed and the endpoint parses, the execution in which the main thread
runs its first five statements first sends the request while the goroutine
has not yet called `http.Handle`. -/
theorem subscribe_go_before_request (env : Env) (a : Args) :
    (∀ (sched : List Action) (pre post : List Event) (input : SubscribeInput),
      (subscribe env a sched).world.trace = pre ++ Event.snsSubscribe input :: post →
      Event.goServe ∈ pre) ∧
    (∀ scheme path : String, env.newSession a.region = .ok () →
      env.urlParse a.endpoint = .ok (scheme, path) →
      (subscribe env a [.main, .main, .main, .main, .main]).world.trace
        = [.newSession a.region, .wgAdd 1, .goServe,
            .snsSubscribe { Endpoint := a.endpoint, Protocol := scheme, TopicArn := a.topic }] ∧
      (subscribe env a [.main, .main, .main, .main, .main]).server = .httpHandle) := by
  unfold subscribe
  constructor
  · intro sched pre post input htrace
    have h := (Inv_run env a sched).mainTrace
    rw [htrace, List.filter_append, List.filter_cons_of_pos (by rfl)] at h
    exact (List.mem_filter.mp (mainEvents_goServe_first env a _ input _ _ h)).1
  · intro scheme path hsess hparse
    cases hsub : env.snsSubscribe
        { Endpoint := a.endpoint, Protocol := scheme, TopicArn := a.topic } <;>
      simp [run, step, mainStep, Sys.init, hsess, hparse, wgAdd, World.emit, hsub]

/-- C10, witness: scenario 1 with the main thread running first. -/
theorem subscribe_go_before_request_witness :
    (subscribe sampleEnv sampleArgs mainFirstSchedule).world.trace
      = [.newSession sampleArgs.region, .wgAdd 1, .goServe,
          .snsSubscribe
            { Endpoint := sampleArgs.endpoint, Protocol := "http",
              TopicArn := sampleArgs.topic }] ∧
    (subscribe sampleEnv sampleArgs mainFirstSchedule).server
      = .httpHandle :=
  (subscribe_go_before_request sampleEnv sampleArgs).2 "http" "/cb" rfl rfl

end SnsSubscribe
